import Mathlib

/-!
Verification development for the websocket chat backend.

The definitions below are a shallow embedding of the TypeScript services and
websocket handlers of the repository: the Prisma tables become Lean lists of
records (in table/insertion order), every fallible service returns an
`Except AppError` value together with the post-state (the source runs each
statement against the store without a surrounding transaction, so a failure
after a write keeps the write), and nondeterministic inputs of the source
(generated UUIDs, the server clock) become explicit parameters.
-/

namespace ChatSpec

/-! ## Identifiers, enums and table rows -/

abbrev UserId := String
abbrev ConvId := String
abbrev MsgId := String
abbrev ConnId := String
abbrev Time := Nat

inductive ConvType
  | DIRECT
  | GROUP
deriving DecidableEq, Repr

inductive Role
  | ADMIN
  | MEMBER
deriving DecidableEq, Repr

inductive ReceiptStatus
  | DELIVERED
  | READ
deriving DecidableEq, Repr

inductive ContentType
  | TEXT
  | IMAGE
  | FILE
  | AUDIO
  | VIDEO
  | SYSTEM
deriving DecidableEq, Repr

/-- The `MessageContentType` enum check done by the database layer: a string is
a valid stored content type exactly when it is one of the six enum members. -/
def parseContentType : String → Option ContentType
  | "TEXT" => some ContentType.TEXT
  | "IMAGE" => some ContentType.IMAGE
  | "FILE" => some ContentType.FILE
  | "AUDIO" => some ContentType.AUDIO
  | "VIDEO" => some ContentType.VIDEO
  | "SYSTEM" => some ContentType.SYSTEM
  | _ => none

structure User where
  id : UserId
  displayName : String
deriving DecidableEq, Repr

structure Conversation where
  id : ConvId
  type : ConvType
  updatedAt : Time
deriving DecidableEq, Repr

structure Participant where
  conversationId : ConvId
  userId : UserId
  role : Role
  joinedAt : Time
  lastReadAt : Option Time
deriving DecidableEq, Repr

structure Message where
  id : MsgId
  conversationId : ConvId
  senderId : UserId
  content : String
  contentType : ContentType
  replyToId : Option MsgId
  createdAt : Time
  deletedAt : Option Time
deriving DecidableEq, Repr

structure Receipt where
  messageId : MsgId
  userId : UserId
  status : ReceiptStatus
  timestamp : Time
deriving DecidableEq, Repr

structure RefreshTokenRow where
  rowId : String
  token : String
  userId : UserId
  expiresAt : Time
deriving DecidableEq, Repr

structure GroupRow where
  id : String
  conversationId : ConvId
  name : String
  createdBy : UserId
deriving DecidableEq, Repr

/-- The relational store, one list per Prisma table, in table order. -/
structure Store where
  users : List User
  conversations : List Conversation
  participants : List Participant
  messages : List Message
  receipts : List Receipt
  groups : List GroupRow
deriving DecidableEq, Repr

/-- The typed error hierarchy of `src/backend/src/utils/errors.ts`. -/
inductive AppError
  | validation (msg : String)
  | authError (msg : String)
  | notFound (msg : String)
  | forbidden (msg : String)
  | internal (msg : String)
deriving DecidableEq, Repr

/-! ## Token service (`src/backend/src/services/auth.service.ts`) -/

structure TokenPair where
  accessToken : String
  refreshToken : String
deriving DecidableEq, Repr

/-- Shallow stand-in for the out-of-scope JWT signer (`jwt.sign`). -/
def signAccess (userId : UserId) : String := "access:" ++ userId

/-- `REFRESH_TOKEN_EXPIRY_DAYS = 7`, in milliseconds. -/
def refreshExpiryMs : Nat := 7 * 24 * 60 * 60 * 1000

def invalidRefreshMsg : String := "Invalid or expired refresh token"

/-- `createTokenPair` from `auth.service.ts`: signs an access token and inserts
a fresh refresh-token row with a 7-day expiry.  The generated random token
string and row id are passed in explicitly. -/
def createTokenPair (db : List RefreshTokenRow) (userId : UserId)
    (freshToken freshRowId : String) (now : Time) : TokenPair × List RefreshTokenRow :=
  ({ accessToken := signAccess userId, refreshToken := freshToken },
   db ++ [{ rowId := freshRowId, token := freshToken, userId := userId,
            expiresAt := now + refreshExpiryMs }])

/-- `refresh` from `auth.service.ts`: look the presented token up; if absent,
fail; if present but expired, delete the row and fail; otherwise delete the
row (rotation) and issue a fresh pair.  The pair is the `Except` result, the
second component is the refresh-token table after the call. -/
def refresh (db : List RefreshTokenRow) (tok : String) (now : Time)
    (freshToken freshRowId : String) : Except AppError TokenPair × List RefreshTokenRow :=
  match db.find? (fun r => r.token == tok) with
  | none => (Except.error (AppError.authError invalidRefreshMsg), db)
  | some stored =>
    if stored.expiresAt < now then
      (Except.error (AppError.authError invalidRefreshMsg),
       db.filter (fun r => r.rowId != stored.rowId))
    else
      let db1 := db.filter (fun r => r.rowId != stored.rowId)
      let res := createTokenPair db1 stored.userId freshToken freshRowId now
      (Except.ok res.1, res.2)

/-- Tokens are a unique column of the refresh-token table. -/
def TokensUnique (db : List RefreshTokenRow) : Prop :=
  db.Pairwise (fun a b => a.token ≠ b.token)

theorem tokensUnique_eq {db : List RefreshTokenRow} (h : TokensUnique db)
    {a b : RefreshTokenRow} (ha : a ∈ db) (hb : b ∈ db)
    (hab : a.token = b.token) : a = b := by
  by_contra hne
  have hsymm : Symmetric (fun x y : RefreshTokenRow => x.token ≠ y.token) := by
    intro x y hxy hyx
    exact hxy hyx.symm
  exact (h.forall hsymm ha hb hne) hab

/-- C1: a successful `refresh r` returns the fresh token, stores it, removes
every row carrying `r`, and a replay of `r` against the resulting table fails
with `AUTHENTICATION_ERROR`; when the stored row for `r` is expired, the call
fails and the row is deleted in the same step. -/
theorem C1_refresh_single_use
    (db : List RefreshTokenRow) (r : String) (now now2 : Time)
    (f1 i1 f2 i2 : String)
    (huniq : TokensUnique db) (hfresh : f1 ≠ r) :
    (∀ pair db1, refresh db r now f1 i1 = (Except.ok pair, db1) →
      pair.refreshToken = f1 ∧
      (∃ row ∈ db1, row.token = f1) ∧
      (∀ row ∈ db1, row.token ≠ r) ∧
      (refresh db1 r now2 f2 i2).1 = Except.error (AppError.authError invalidRefreshMsg)) ∧
    (∀ stored ∈ db, stored.token = r → stored.expiresAt < now →
      (refresh db r now f1 i1).1 = Except.error (AppError.authError invalidRefreshMsg) ∧
      ∀ row ∈ (refresh db r now f1 i1).2, row.token ≠ r) := by
  constructor
  · intro pair db1 hok
    cases hfind : db.find? (fun x => x.token == r) with
    | none =>
      unfold refresh at hok
      rw [hfind] at hok
      simp at hok
    | some stored =>
      have hstok : stored.token = r := by simpa using List.find?_some hfind
      have hsmem : stored ∈ db := List.mem_of_find?_eq_some hfind
      by_cases hexp : stored.expiresAt < now
      · unfold refresh at hok
        rw [hfind] at hok
        simp [hexp] at hok
      · have hval : refresh db r now f1 i1 =
            (Except.ok { accessToken := signAccess stored.userId, refreshToken := f1 },
             db.filter (fun x => x.rowId != stored.rowId) ++
               [{ rowId := i1, token := f1, userId := stored.userId,
                  expiresAt := now + refreshExpiryMs }]) := by
          unfold refresh
          rw [hfind]
          simp [hexp, createTokenPair]
        rw [hval] at hok
        rw [Prod.mk.injEq] at hok
        obtain ⟨hok1, hok2⟩ := hok
        have hpair : pair = { accessToken := signAccess stored.userId, refreshToken := f1 } := by
          injection hok1 with h
          exact h.symm
        have hdb1 : db1 = db.filter (fun x => x.rowId != stored.rowId) ++
            [{ rowId := i1, token := f1, userId := stored.userId,
               expiresAt := now + refreshExpiryMs }] := hok2.symm
        have hnot_r : ∀ row ∈ db1, row.token ≠ r := by
          intro row hrow
          rw [hdb1] at hrow
          rcases List.mem_append.mp hrow with hl | hr
          · have hmem := (List.mem_filter.mp hl).1
            have hid := (List.mem_filter.mp hl).2
            intro htok
            have hrs : row = stored := tokensUnique_eq huniq hmem hsmem (htok.trans hstok.symm)
            rw [hrs] at hid
            simp at hid
          · intro htok
            have hrow1 : row = { rowId := i1, token := f1, userId := stored.userId,
                                 expiresAt := now + refreshExpiryMs } := by simpa using hr
            rw [hrow1] at htok
            exact hfresh htok
        refine ⟨by rw [hpair], ?_, hnot_r, ?_⟩
        · refine ⟨{ rowId := i1, token := f1, userId := stored.userId,
                    expiresAt := now + refreshExpiryMs }, ?_, rfl⟩
          rw [hdb1]
          simp
        · have hnone : db1.find? (fun x => x.token == r) = none := by
            rw [List.find?_eq_none]
            intro row hrow
            simpa using hnot_r row hrow
          unfold refresh
          rw [hnone]
  · intro stored hsmem hstok hexp
    have hsome : (db.find? (fun x => x.token == r)).isSome := by
      rw [List.find?_isSome]
      exact ⟨stored, hsmem, by simp [hstok]⟩
    rcases Option.isSome_iff_exists.mp hsome with ⟨s0, hfind⟩
    have hs0tok : s0.token = r := by simpa using List.find?_some hfind
    have hs0mem : s0 ∈ db := List.mem_of_find?_eq_some hfind
    have hs0 : s0 = stored := tokensUnique_eq huniq hs0mem hsmem (hs0tok.trans hstok.symm)
    have hexp0 : s0.expiresAt < now := hs0 ▸ hexp
    have hval : refresh db r now f1 i1 =
        (Except.error (AppError.authError invalidRefreshMsg),
         db.filter (fun x => x.rowId != s0.rowId)) := by
      unfold refresh
      rw [hfind]
      simp [hexp0]
    rw [hval]
    refine ⟨rfl, ?_⟩
    intro row hrow htok
    have hmem := (List.mem_filter.mp hrow).1
    have hid := (List.mem_filter.mp hrow).2
    have hrs : row = s0 := tokensUnique_eq huniq hmem hs0mem (htok.trans hs0tok.symm)
    rw [hrs] at hid
    simp at hid

/-- C1 witness: a concrete one-row table where both branches of
`C1_refresh_single_use` fire. -/
theorem C1_refresh_single_use_witness :
    TokensUnique [{ rowId := "i0", token := "r0", userId := "u", expiresAt := 100 }] ∧
    ("r1" : String) ≠ "r0" ∧
    (∀ pair db1,
      refresh [{ rowId := "i0", token := "r0", userId := "u", expiresAt := 100 }] "r0" 50 "r1" "i1" =
        (Except.ok pair, db1) →
      pair.refreshToken = "r1" ∧
      (∃ row ∈ db1, row.token = "r1") ∧
      (∀ row ∈ db1, row.token ≠ "r0") ∧
      (refresh db1 "r0" 60 "r2" "i2").1 = Except.error (AppError.authError invalidRefreshMsg)) := by
  refine ⟨?_, by decide, ?_⟩
  · simp [TokensUnique]
  · exact (C1_refresh_single_use
      [{ rowId := "i0", token := "r0", userId := "u", expiresAt := 100 }]
      "r0" 50 60 "r1" "i1" "r2" "i2" (by simp [TokensUnique]) (by decide)).1

/-! ## Receipts (`src/backend/src/ws/handlers/receipt.handler.ts`) -/

/-- A receipt row matches the unique `(messageId, userId)` key. -/
def receiptKey (mid : MsgId) (uid : UserId) (r : Receipt) : Bool :=
  r.messageId == mid && r.userId == uid

/-- Prisma `messageReceipt.upsert` on the unique `(messageId, userId)` key:
apply `upd` to the stored row when one exists, otherwise insert `mk`. -/
def upsertReceipt (receipts : List Receipt) (mid : MsgId) (uid : UserId)
    (upd : Receipt → Receipt) (mk : Receipt) : List Receipt :=
  if receipts.any (receiptKey mid uid) then
    receipts.map (fun r => if receiptKey mid uid r then upd r else r)
  else
    receipts ++ [mk]

/-- `createDeliveryReceipt`: upsert with an empty `update` clause and a
DELIVERED `create` clause.  (The frame it also emits back to the sender is
not needed for the receipt-table claims.) -/
def createDeliveryReceipt (receipts : List Receipt) (mid : MsgId)
    (recipientId : UserId) (now : Time) : List Receipt :=
  upsertReceipt receipts mid recipientId (fun r => r)
    { messageId := mid, userId := recipientId, status := ReceiptStatus.DELIVERED,
      timestamp := now }

/-- The per-message upsert inside `handleChatRead`: `update` sets READ and a
fresh timestamp, `create` inserts a READ row. -/
def readUpsertReceipt (receipts : List Receipt) (mid : MsgId) (uid : UserId)
    (now : Time) : List Receipt :=
  upsertReceipt receipts mid uid
    (fun r => { r with status := ReceiptStatus.READ, timestamp := now })
    { messageId := mid, userId := uid, status := ReceiptStatus.READ, timestamp := now }

/-- C2: the delivery upsert never changes an existing receipt (in particular a
READ receipt is never downgraded to DELIVERED), while the read upsert rewrites
an existing DELIVERED row to READ. -/
theorem C2_receipt_status_monotonic
    (receipts : List Receipt) (mid : MsgId) (uid : UserId) (now : Time) :
    ((∃ r ∈ receipts, receiptKey mid uid r) →
      createDeliveryReceipt receipts mid uid now = receipts) ∧
    ((∀ r ∈ receipts, ¬ receiptKey mid uid r) →
      createDeliveryReceipt receipts mid uid now =
        receipts ++ [{ messageId := mid, userId := uid,
                       status := ReceiptStatus.DELIVERED, timestamp := now }]) ∧
    (∀ r ∈ receipts, receiptKey mid uid r → r.status = ReceiptStatus.DELIVERED →
      { r with status := ReceiptStatus.READ, timestamp := now } ∈
        readUpsertReceipt receipts mid uid now) := by
  refine ⟨?_, ?_, ?_⟩
  · rintro ⟨r, hr, hkey⟩
    have hany : receipts.any (receiptKey mid uid) = true :=
      List.any_eq_true.mpr ⟨r, hr, hkey⟩
    simp only [createDeliveryReceipt, upsertReceipt, hany, if_true]
    apply List.map_id''
    intro x
    by_cases hx : receiptKey mid uid x <;> simp [hx]
  · intro hnone
    have hany : receipts.any (receiptKey mid uid) = false := by
      rw [List.any_eq_false]
      intro r hr
      exact hnone r hr
    simp [createDeliveryReceipt, upsertReceipt, hany]
  · intro r hr hkey _
    have hany : receipts.any (receiptKey mid uid) = true :=
      List.any_eq_true.mpr ⟨r, hr, hkey⟩
    simp only [readUpsertReceipt, upsertReceipt, hany, if_true]
    rw [List.mem_map]
    exact ⟨r, hr, by simp [hkey]⟩

/-- C2 witness: a stored READ receipt survives the delivery upsert untouched,
and a stored DELIVERED receipt is rewritten to READ by the read upsert. -/
theorem C2_receipt_status_monotonic_witness :
    ((∃ r ∈ [{ messageId := "m", userId := "u", status := ReceiptStatus.READ,
               timestamp := 3 }], receiptKey "m" "u" r) →
      createDeliveryReceipt
          [{ messageId := "m", userId := "u", status := ReceiptStatus.READ, timestamp := 3 }]
          "m" "u" 9 =
        [{ messageId := "m", userId := "u", status := ReceiptStatus.READ, timestamp := 3 }]) ∧
    (∃ r ∈ [{ messageId := "m", userId := "u", status := ReceiptStatus.READ,
              timestamp := 3 }], receiptKey "m" "u" r) := by
  refine ⟨(C2_receipt_status_monotonic
    [{ messageId := "m", userId := "u", status := ReceiptStatus.READ, timestamp := 3 }]
    "m" "u" 9).1, ?_⟩
  exact ⟨{ messageId := "m", userId := "u", status := ReceiptStatus.READ, timestamp := 3 },
    by simp, by decide⟩

/-- READ receipt presence for the Prisma filter
`receipts: { none: { userId, status: READ } }` (negated). -/
def hasReadReceipt (receipts : List Receipt) (mid : MsgId) (uid : UserId) : Bool :=
  receipts.any (fun r => r.messageId == mid && r.userId == uid &&
    r.status == ReceiptStatus.READ)

/-- A `chat:read` notification frame, `sentTo` being the `sendToUser` target. -/
structure ReadFrame where
  messageId : MsgId
  conversationId : ConvId
  readBy : UserId
  sentTo : UserId
deriving DecidableEq, Repr

/-- `handleChatRead` from `receipt.handler.ts`: bump the requester's
`lastReadAt`, fetch the target message, silently return when it is missing or
in another conversation, else upsert a READ receipt for every not-yet-READ
message of the conversation up to the target's timestamp and notify each
sender.  The `lastReadAt` update touches only the participants table, so the
later queries read the original `messages` and `receipts` tables. -/
def handleChatRead (st : Store) (connUser : Option UserId) (convId : ConvId)
    (msgId : MsgId) (now : Time) : Store × List ReadFrame :=
  match connUser with
  | none => (st, [])
  | some uid =>
    let parts := st.participants.map (fun p =>
      if p.conversationId == convId && p.userId == uid then
        { p with lastReadAt := some now }
      else p)
    match st.messages.find? (fun m => m.id == msgId) with
    | none => ({ st with participants := parts }, [])
    | some target =>
      if target.conversationId ≠ convId then ({ st with participants := parts }, [])
      else
        let unread := st.messages.filter (fun m =>
          m.conversationId == convId && decide (m.createdAt ≤ target.createdAt) &&
          m.senderId != uid && !(hasReadReceipt st.receipts m.id uid))
        let recs := unread.foldl (fun acc m => readUpsertReceipt acc m.id uid now) st.receipts
        ({ st with participants := parts, receipts := recs },
         unread.map (fun m => { messageId := m.id, conversationId := convId,
                                readBy := uid, sentTo := m.senderId }))

/-- There is a READ receipt row for `(mid, uid)`. -/
def ExistsReadReceipt (receipts : List Receipt) (mid : MsgId) (uid : UserId) : Prop :=
  ∃ r ∈ receipts, r.messageId = mid ∧ r.userId = uid ∧ r.status = ReceiptStatus.READ

theorem existsRead_readUpsert (receipts : List Receipt) (mid : MsgId) (uid : UserId)
    (mid' : MsgId) (uid' : UserId) (now : Time)
    (h : ExistsReadReceipt receipts mid uid) :
    ExistsReadReceipt (readUpsertReceipt receipts mid' uid' now) mid uid := by
  obtain ⟨r, hr, h1, h2, h3⟩ := h
  unfold readUpsertReceipt upsertReceipt
  by_cases hany : receipts.any (receiptKey mid' uid') = true
  · rw [if_pos hany]
    refine ⟨_, List.mem_map_of_mem _ hr, ?_⟩
    by_cases hk : receiptKey mid' uid' r = true <;> simp [hk, h1, h2, h3]
  · rw [if_neg hany]
    exact ⟨r, List.mem_append_left _ hr, h1, h2, h3⟩

theorem existsRead_readUpsert_self (receipts : List Receipt) (mid : MsgId)
    (uid : UserId) (now : Time) :
    ExistsReadReceipt (readUpsertReceipt receipts mid uid now) mid uid := by
  unfold readUpsertReceipt upsertReceipt
  by_cases hany : receipts.any (receiptKey mid uid) = true
  · rw [if_pos hany]
    obtain ⟨r, hr, hk⟩ := List.any_eq_true.mp hany
    obtain ⟨hk1, hk2⟩ : r.messageId = mid ∧ r.userId = uid := by
      simpa [receiptKey] using hk
    refine ⟨_, List.mem_map_of_mem _ hr, ?_⟩
    simp [receiptKey, hk1, hk2]
  · rw [if_neg hany]
    exact ⟨_, List.mem_append_right _ (List.mem_singleton_self _), rfl, rfl, rfl⟩

theorem existsRead_foldl (uid : UserId) (now : Time) (L : List Message) :
    ∀ (receipts : List Receipt) (mid : MsgId),
      (ExistsReadReceipt receipts mid uid ∨ mid ∈ L.map (fun m => m.id)) →
      ExistsReadReceipt
        (L.foldl (fun acc m => readUpsertReceipt acc m.id uid now) receipts) mid uid := by
  induction L with
  | nil =>
    intro receipts mid h
    rcases h with h | h
    · exact h
    · simp at h
  | cons m ms ih =>
    intro receipts mid h
    simp only [List.foldl_cons]
    apply ih
    rcases h with h | h
    · exact Or.inl (existsRead_readUpsert _ _ _ _ _ _ h)
    · rcases List.mem_map.mp h with ⟨m', hm', hid⟩
      rcases List.mem_cons.mp hm' with heq | htail
      · subst hid
        rw [heq]
        exact Or.inl (existsRead_readUpsert_self receipts m.id uid now)
      · exact Or.inr (List.mem_map.mpr ⟨m', htail, hid⟩)

/-- Shared helper: when the target is found in the right conversation, every
message of the conversation up to the target's timestamp from another sender
ends up with a READ receipt for the requester. -/
theorem handleChatRead_marks_read (st : Store) (uid : UserId) (convId : ConvId)
    (msgId : MsgId) (now : Time) (target : Message)
    (hfind : st.messages.find? (fun m => m.id == msgId) = some target)
    (hconv : target.conversationId = convId) :
    ∀ m ∈ st.messages, m.conversationId = convId → m.createdAt ≤ target.createdAt →
      m.senderId ≠ uid →
      ExistsReadReceipt (handleChatRead st (some uid) convId msgId now).1.receipts m.id uid := by
  intro m hm hmc hmt hms
  have hres : (handleChatRead st (some uid) convId msgId now).1.receipts =
      (st.messages.filter (fun x =>
        x.conversationId == convId && decide (x.createdAt ≤ target.createdAt) &&
        x.senderId != uid && !(hasReadReceipt st.receipts x.id uid))).foldl
        (fun acc x => readUpsertReceipt acc x.id uid now) st.receipts := by
    unfold handleChatRead
    rw [hfind]
    dsimp only
    rw [if_neg (not_not_intro hconv)]
  rw [hres]
  apply existsRead_foldl
  by_cases hhas : hasReadReceipt st.receipts m.id uid = true
  · left
    obtain ⟨r, hr, hk⟩ := List.any_eq_true.mp hhas
    refine ⟨r, hr, ?_⟩
    simpa [and_assoc] using hk
  · right
    rw [List.mem_map]
    refine ⟨m, ?_, rfl⟩
    rw [List.mem_filter]
    exact ⟨hm, by simp [hmc, hmt, hms, hhas]⟩

/-- C3: after `chat:read` from an authenticated user, a missing or
cross-conversation target changes no receipt and sends nothing; otherwise
every message of the conversation up to the target's timestamp from another
sender ends with a READ receipt for the requester, and the requester's
participant rows of that conversation carry `lastReadAt = now`. -/
theorem C3_handle_chat_read (st : Store) (uid : UserId) (convId : ConvId)
    (msgId : MsgId) (now : Time) :
    (st.messages.find? (fun m => m.id == msgId) = none →
      (handleChatRead st (some uid) convId msgId now).1.receipts = st.receipts ∧
      (handleChatRead st (some uid) convId msgId now).2 = []) ∧
    (∀ target, st.messages.find? (fun m => m.id == msgId) = some target →
      target.conversationId ≠ convId →
      (handleChatRead st (some uid) convId msgId now).1.receipts = st.receipts ∧
      (handleChatRead st (some uid) convId msgId now).2 = []) ∧
    (∀ target, st.messages.find? (fun m => m.id == msgId) = some target →
      target.conversationId = convId →
      (∀ m ∈ st.messages, m.conversationId = convId →
        m.createdAt ≤ target.createdAt → m.senderId ≠ uid →
        ExistsReadReceipt (handleChatRead st (some uid) convId msgId now).1.receipts m.id uid) ∧
      (∀ p ∈ (handleChatRead st (some uid) convId msgId now).1.participants,
        p.conversationId = convId → p.userId = uid → p.lastReadAt = some now)) := by
  refine ⟨?_, ?_, ?_⟩
  · intro hnone
    unfold handleChatRead
    rw [hnone]
    exact ⟨rfl, rfl⟩
  · intro target hfind hne
    unfold handleChatRead
    rw [hfind]
    dsimp only
    rw [if_pos hne]
    exact ⟨rfl, rfl⟩
  · intro target hfind hconv
    refine ⟨handleChatRead_marks_read st uid convId msgId now target hfind hconv, ?_⟩
    intro p hp hpc hpu
    have hparts : (handleChatRead st (some uid) convId msgId now).1.participants =
        st.participants.map (fun q =>
          if q.conversationId == convId && q.userId == uid then
            { q with lastReadAt := some now }
          else q) := by
      unfold handleChatRead
      rw [hfind]
      dsimp only
      rw [if_neg (not_not_intro hconv)]
    rw [hparts] at hp
    obtain ⟨q, hq, hfq⟩ := List.mem_map.mp hp
    by_cases hcond : (q.conversationId == convId && q.userId == uid) = true
    · rw [if_pos hcond] at hfq
      rw [← hfq]
    · rw [if_neg hcond] at hfq
      subst hfq
      simp [hpc, hpu] at hcond

/-- Sample store for the C3 witness: one conversation, one message from
alice, bob a participant with no receipts yet. -/
def c3Store : Store :=
  { users := [],
    conversations := [{ id := "c", type := ConvType.DIRECT, updatedAt := 0 }],
    participants := [{ conversationId := "c", userId := "bob", role := Role.MEMBER,
                       joinedAt := 0, lastReadAt := none }],
    messages := [{ id := "m1", conversationId := "c", senderId := "alice", content := "hi",
                   contentType := ContentType.TEXT, replyToId := none, createdAt := 5,
                   deletedAt := none }],
    receipts := [],
    groups := [] }

/-- C3 witness: on `c3Store`, reading up to message `m1` marks it READ for bob
and stamps bob's participant row. -/
theorem C3_handle_chat_read_witness :
    ((∀ m ∈ c3Store.messages, m.conversationId = "c" →
        m.createdAt ≤ 5 →
        m.senderId ≠ "bob" →
        ExistsReadReceipt (handleChatRead c3Store (some "bob") "c" "m1" 9).1.receipts
          m.id "bob") ∧
      (∀ p ∈ (handleChatRead c3Store (some "bob") "c" "m1" 9).1.participants,
        p.conversationId = "c" → p.userId = "bob" → p.lastReadAt = some 9)) ∧
    c3Store.messages.find? (fun m => m.id == "m1") =
      some { id := "m1", conversationId := "c", senderId := "alice", content := "hi",
             contentType := ContentType.TEXT, replyToId := none, createdAt := 5,
             deletedAt := none } :=
  ⟨(C3_handle_chat_read c3Store "bob" "c" "m1" 9).2.2
      { id := "m1", conversationId := "c", senderId := "alice", content := "hi",
        contentType := ContentType.TEXT, replyToId := none, createdAt := 5,
        deletedAt := none } (by decide) rfl,
    by decide⟩

theorem list_map_id_of_mem {α : Type} {l : List α} {f : α → α}
    (h : ∀ a ∈ l, f a = a) : l.map f = l := by
  induction l with
  | nil => rfl
  | cons x xs ih =>
    simp only [List.map_cons]
    rw [h x (List.mem_cons_self x xs), ih (fun a ha => h a (List.mem_cons_of_mem x ha))]

/-- C10: `handleChatRead` never checks conversation membership: for a user
with no participant row in the conversation, the handler is not rejected — it
still upserts READ receipts for the qualifying messages, and the participants
table is untouched only because the `updateMany` matches no row. -/
theorem C10_read_without_membership (st : Store) (uid : UserId) (convId : ConvId)
    (msgId : MsgId) (now : Time) (target : Message)
    (hnm : ∀ p ∈ st.participants, ¬(p.conversationId = convId ∧ p.userId = uid))
    (hfind : st.messages.find? (fun m => m.id == msgId) = some target)
    (hconv : target.conversationId = convId) :
    (handleChatRead st (some uid) convId msgId now).1.participants = st.participants ∧
    ∀ m ∈ st.messages, m.conversationId = convId → m.createdAt ≤ target.createdAt →
      m.senderId ≠ uid →
      ExistsReadReceipt (handleChatRead st (some uid) convId msgId now).1.receipts m.id uid := by
  refine ⟨?_, handleChatRead_marks_read st uid convId msgId now target hfind hconv⟩
  have hparts : (handleChatRead st (some uid) convId msgId now).1.participants =
      st.participants.map (fun q =>
        if q.conversationId == convId && q.userId == uid then
          { q with lastReadAt := some now }
        else q) := by
    unfold handleChatRead
    rw [hfind]
    dsimp only
    rw [if_neg (not_not_intro hconv)]
  rw [hparts]
  apply list_map_id_of_mem
  intro q hq
  rw [if_neg]
  intro hcond
  exact hnm q hq (by simpa using hcond)

/-- Sample store for the C10 witness: like `c3Store` but bob has no
participant row anywhere. -/
def c10Store : Store :=
  { users := [],
    conversations := [{ id := "c", type := ConvType.DIRECT, updatedAt := 0 }],
    participants := [{ conversationId := "c", userId := "alice", role := Role.MEMBER,
                       joinedAt := 0, lastReadAt := none }],
    messages := [{ id := "m1", conversationId := "c", senderId := "alice", content := "hi",
                   contentType := ContentType.TEXT, replyToId := none, createdAt := 5,
                   deletedAt := none }],
    receipts := [],
    groups := [] }

/-- C10 witness: bob is no participant of `c`, yet reading marks `m1` READ for
bob and leaves the participants table unchanged. -/
theorem C10_read_without_membership_witness :
    ((handleChatRead c10Store (some "bob") "c" "m1" 9).1.participants =
        c10Store.participants ∧
      ∀ m ∈ c10Store.messages, m.conversationId = "c" → m.createdAt ≤ 5 →
        m.senderId ≠ "bob" →
        ExistsReadReceipt (handleChatRead c10Store (some "bob") "c" "m1" 9).1.receipts
          m.id "bob") ∧
    (∀ p ∈ c10Store.participants, ¬(p.conversationId = "c" ∧ p.userId = "bob")) :=
  ⟨C10_read_without_membership c10Store "bob" "c" "m1" 9
      { id := "m1", conversationId := "c", senderId := "alice", content := "hi",
        contentType := ContentType.TEXT, replyToId := none, createdAt := 5,
        deletedAt := none }
      (by decide) (by decide) rfl,
    by decide⟩

/-! ## Message history (`getMessages` in message.service.ts, src/unnamed/part_012) -/

/-- `isParticipant` from conversation.service.ts: a unique-key lookup on
`(conversationId, userId)`. -/
def isParticipant (st : Store) (convId : ConvId) (userId : UserId) : Bool :=
  st.participants.any (fun p => p.conversationId == convId && p.userId == userId)

/-- Stable insertion for a list sorted by `createdAt` descending: the new
front element goes before the first element whose `createdAt` is `≤` its own,
so equal timestamps keep their table order. -/
def insertByCreatedAtDesc (m : Message) : List Message → List Message
  | [] => [m]
  | x :: xs =>
    if x.createdAt ≤ m.createdAt then m :: x :: xs
    else x :: insertByCreatedAtDesc m xs

/-- Stable sort by `createdAt` descending, the deterministic reading of the
query `orderBy: { createdAt: "desc" }` — the source orders by `createdAt`
alone, with no secondary key, so ties stay in table order. -/
def sortByCreatedAtDesc (l : List Message) : List Message :=
  l.foldr insertByCreatedAtDesc []

/-- The history query of `getMessages`: non-tombstoned messages of the
conversation, newest first. -/
def queryMessagesDesc (msgs : List Message) (convId : ConvId) : List Message :=
  sortByCreatedAtDesc (msgs.filter (fun m =>
    m.conversationId == convId && m.deletedAt == none))

/-- Prisma `cursor: { id: cursor }, skip: 1`: resume strictly after the cursor
row's position in the ordered sequence. -/
def afterCursor (sorted : List Message) : Option MsgId → List Message
  | none => sorted
  | some cid => (sorted.dropWhile (fun m => m.id != cid)).drop 1

structure MessagePage where
  messages : List Message
  hasMore : Bool
  nextCursor : Option MsgId
deriving DecidableEq, Repr

/-- `getMessages` from message.service.ts: participant check, fetch
`limit + 1` rows newest-first after the cursor, `pop` the extra row to compute
`hasMore`, return the page reversed (ascending) with `nextCursor` the id of
the first (oldest) returned message when `hasMore`. -/
def getMessages (st : Store) (convId : ConvId) (userId : UserId)
    (cursor : Option MsgId) (limit : Nat) : Except AppError MessagePage :=
  if !(isParticipant st convId userId) then
    Except.error (AppError.forbidden "Not a participant of this conversation")
  else
    let fetched := (afterCursor (queryMessagesDesc st.messages convId) cursor).take (limit + 1)
    let asc := (if limit < fetched.length then fetched.dropLast else fetched).reverse
    Except.ok { messages := asc,
                hasMore := decide (limit < fetched.length),
                nextCursor := if limit < fetched.length then
                    asc.head?.map (fun m => m.id)
                  else none }

/-- Fuel-bounded page collection: call `getMessages`, follow `nextCursor`
while `hasMore` is set, gathering the returned pages in call order. -/
def collectPages (st : Store) (convId : ConvId) (userId : UserId) :
    Nat → Option MsgId → Nat → List (List Message)
  | 0, _, _ => []
  | Nat.succ fuel, cursor, limit =>
    match getMessages st convId userId cursor limit with
    | Except.error _ => []
    | Except.ok page =>
      page.messages ::
        (if page.hasMore then collectPages st convId userId fuel page.nextCursor limit
         else [])

/-- Store for the C4 counterexample: three live messages of conversation `c`
sharing one `createdAt`, in table order `b`, `c`, `a`. -/
def c4Store : Store :=
  { users := [],
    conversations := [{ id := "c", type := ConvType.DIRECT, updatedAt := 0 }],
    participants := [{ conversationId := "c", userId := "u", role := Role.MEMBER,
                       joinedAt := 0, lastReadAt := none }],
    messages := [
      { id := "b", conversationId := "c", senderId := "u", content := "1",
        contentType := ContentType.TEXT, replyToId := none, createdAt := 5,
        deletedAt := none },
      { id := "c", conversationId := "c", senderId := "u", content := "2",
        contentType := ContentType.TEXT, replyToId := none, createdAt := 5,
        deletedAt := none },
      { id := "a", conversationId := "c", senderId := "u", content := "3",
        contentType := ContentType.TEXT, replyToId := none, createdAt := 5,
        deletedAt := none }],
    receipts := [],
    groups := [] }

/-- C4 counterexample: the source orders by `createdAt` alone — there is no
secondary tiebreak on message id, so the order is not total.  On `c4Store`
all three returned messages share one `createdAt`, yet the page comes back in
table order `a, c, b`: under any id tiebreak the ascending page would be
id-sorted (`a, b, c` or `c, b, a`), so the claimed ordering is refuted at this
input. -/
theorem C4_counterexample :
    (getMessages c4Store "c" "u" none 50).toOption.map
        (fun p => p.messages.map (fun m => m.id)) = some ["a", "c", "b"] ∧
    (∀ m ∈ queryMessagesDesc c4Store.messages "c", m.createdAt = 5) ∧
    (["a", "c", "b"] : List String) ≠ ["a", "b", "c"] ∧
    (["a", "c", "b"] : List String) ≠ ["c", "b", "a"] := by decide

theorem mem_insertByCreatedAtDesc {y m : Message} {l : List Message} :
    y ∈ insertByCreatedAtDesc m l ↔ y = m ∨ y ∈ l := by
  induction l with
  | nil => simp [insertByCreatedAtDesc]
  | cons x xs ih =>
    by_cases h : x.createdAt ≤ m.createdAt
    · simp [insertByCreatedAtDesc, h]
    · simp [insertByCreatedAtDesc, h, ih]
      tauto

theorem insertByCreatedAtDesc_sorted {m : Message} {l : List Message}
    (h : l.Pairwise (fun a b => b.createdAt ≤ a.createdAt)) :
    (insertByCreatedAtDesc m l).Pairwise (fun a b => b.createdAt ≤ a.createdAt) := by
  induction l with
  | nil => simp [insertByCreatedAtDesc]
  | cons x xs ih =>
    rw [List.pairwise_cons] at h
    obtain ⟨hx, hxs⟩ := h
    by_cases hc : x.createdAt ≤ m.createdAt
    · simp only [insertByCreatedAtDesc, if_pos hc]
      rw [List.pairwise_cons]
      refine ⟨?_, ?_⟩
      · intro y hy
        rcases List.mem_cons.mp hy with heq | hy2
        · rw [heq]; exact hc
        · exact le_trans (hx y hy2) hc
      · rw [List.pairwise_cons]
        exact ⟨hx, hxs⟩
    · simp only [insertByCreatedAtDesc, if_neg hc]
      rw [List.pairwise_cons]
      refine ⟨?_, ih hxs⟩
      intro y hy
      rcases mem_insertByCreatedAtDesc.mp hy with heq | hy2
      · rw [heq]; exact le_of_lt (lt_of_not_le hc)
      · exact hx y hy2

theorem sortByCreatedAtDesc_sorted (l : List Message) :
    (sortByCreatedAtDesc l).Pairwise (fun a b => b.createdAt ≤ a.createdAt) := by
  induction l with
  | nil => simp [sortByCreatedAtDesc]
  | cons x xs ih =>
    simp only [sortByCreatedAtDesc, List.foldr_cons]
    exact insertByCreatedAtDesc_sorted ih

theorem queryMessagesDesc_sorted (msgs : List Message) (convId : ConvId) :
    (queryMessagesDesc msgs convId).Pairwise (fun a b => b.createdAt ≤ a.createdAt) :=
  sortByCreatedAtDesc_sorted _

theorem afterCursor_sublist (sorted : List Message) (cursor : Option MsgId) :
    (afterCursor sorted cursor).Sublist sorted := by
  cases cursor with
  | none => exact List.Sublist.refl _
  | some cid =>
    exact ((List.drop_sublist 1 _).trans (List.dropWhile_sublist _))

theorem dropWhile_ne_of_append {A : List Message} (x : Message) (B : List Message)
    (hA : ∀ a ∈ A, a.id ≠ x.id) :
    (A ++ x :: B).dropWhile (fun m => m.id != x.id) = x :: B := by
  induction A with
  | nil =>
    rw [List.nil_append, List.dropWhile_cons]
    simp
  | cons a as ih =>
    rw [List.cons_append, List.dropWhile_cons,
      if_pos (by simpa using hA a (List.mem_cons_self a as))]
    exact ih (fun y hy => hA y (List.mem_cons_of_mem a hy))

theorem afterCursor_append (A : List Message) (x : Message) (B : List Message)
    (hA : ∀ a ∈ A, a.id ≠ x.id) :
    afterCursor (A ++ x :: B) (some x.id) = B := by
  simp only [afterCursor]
  rw [dropWhile_ne_of_append x B hA]
  rfl

theorem getMessages_eq (st : Store) (convId : ConvId) (userId : UserId)
    (cursor : Option MsgId) (limit : Nat) (T : List Message)
    (hpart : isParticipant st convId userId = true)
    (hT : afterCursor (queryMessagesDesc st.messages convId) cursor = T) :
    getMessages st convId userId cursor limit =
      Except.ok
        { messages := (if limit < (T.take (limit + 1)).length then
              (T.take (limit + 1)).dropLast
            else T.take (limit + 1)).reverse,
          hasMore := decide (limit < (T.take (limit + 1)).length),
          nextCursor := if limit < (T.take (limit + 1)).length then
              ((if limit < (T.take (limit + 1)).length then
                  (T.take (limit + 1)).dropLast
                else T.take (limit + 1)).reverse).head?.map (fun m => m.id)
            else none } := by
  subst hT
  unfold getMessages
  rw [hpart]
  rfl

/-- Tiling lemma for cursor pagination: starting from a cursor whose remaining
suffix is `suf`, following `nextCursor` while `hasMore` holds returns pages
that, read back newest-first, concatenate to exactly `suf`. -/
theorem collectPages_tile (st : Store) (convId : ConvId) (userId : UserId) (limit : Nat)
    (hpart : isParticipant st convId userId = true) (hlim : 0 < limit)
    (hids : (queryMessagesDesc st.messages convId).Pairwise (fun a b => a.id ≠ b.id)) :
    ∀ (fuel : Nat) (cursor : Option MsgId) (pre suf : List Message),
      queryMessagesDesc st.messages convId = pre ++ suf →
      afterCursor (queryMessagesDesc st.messages convId) cursor = suf →
      suf.length ≤ fuel * limit →
      ((collectPages st convId userId fuel cursor limit).map List.reverse).flatten = suf := by
  intro fuel
  induction fuel with
  | zero =>
    intro cursor pre suf hsplit hcur hlen
    have hnil : suf = [] := List.eq_nil_of_length_eq_zero (by omega)
    subst hnil
    rfl
  | succ fuel ih =>
    intro cursor pre suf hsplit hcur hlen
    by_cases hle : suf.length ≤ limit
    · have htake : suf.take (limit + 1) = suf := List.take_of_length_le (by omega)
      have hcond : ¬ (limit < suf.length) := by omega
      have hgm2 : getMessages st convId userId cursor limit =
          Except.ok { messages := suf.reverse, hasMore := false, nextCursor := none } := by
        rw [getMessages_eq st convId userId cursor limit suf hpart hcur]
        simp [htake, hcond]
      simp only [collectPages]
      rw [hgm2]
      simp
    · push_neg at hle
      have htlen : (suf.take limit).length = limit := by
        rw [List.length_take]
        omega
      have htne : suf.take limit ≠ [] := by
        intro h
        rw [h] at htlen
        simp at htlen
        omega
      rcases List.eq_nil_or_concat (suf.take limit) with hnil | ⟨P, x, hPx⟩
      · exact absurd hnil htne
      rw [List.concat_eq_append] at hPx
      have hflen : (suf.take (limit + 1)).length = limit + 1 := by
        rw [List.length_take]
        omega
      have hcond : limit < (suf.take (limit + 1)).length := by
        rw [hflen]
        omega
      have hdrop : (suf.take (limit + 1)).dropLast = suf.take limit := by
        rw [List.dropLast_eq_take, hflen, Nat.add_sub_cancel, List.take_take,
          min_eq_left (Nat.le_succ limit)]
      have hgm2 : getMessages st convId userId cursor limit =
          Except.ok { messages := (suf.take limit).reverse,
                      hasMore := true,
                      nextCursor := some x.id } := by
        rw [getMessages_eq st convId userId cursor limit suf hpart hcur]
        simp only [hcond, if_true, decide_True, hdrop, hPx, List.reverse_append,
          List.reverse_cons, List.reverse_nil, List.nil_append, List.singleton_append,
          List.head?_cons, Option.map_some]
        rfl
      have hS : queryMessagesDesc st.messages convId =
          (pre ++ P) ++ (x :: suf.drop limit) := by
        rw [hsplit]
        conv_lhs => rw [← List.take_append_drop limit suf]
        rw [hPx]
        simp [List.append_assoc]
      have hA : ∀ a ∈ pre ++ P, a.id ≠ x.id := by
        have hids2 := hids
        rw [hS, List.pairwise_append] at hids2
        obtain ⟨-, -, hcross⟩ := hids2
        exact fun a ha => hcross a ha x (List.mem_cons_self _ _)
      have hcur2 : afterCursor (queryMessagesDesc st.messages convId) (some x.id) =
          suf.drop limit := by
        rw [hS]
        exact afterCursor_append _ x _ hA
      have hsplit2 : queryMessagesDesc st.messages convId =
          (pre ++ suf.take limit) ++ suf.drop limit := by
        rw [hS, hPx]
        simp [List.append_assoc]
      have hlen2 : (suf.drop limit).length ≤ fuel * limit := by
        rw [List.length_drop]
        rw [Nat.succ_mul] at hlen
        omega
      have hrec := ih (some x.id) (pre ++ suf.take limit) (suf.drop limit)
        hsplit2 hcur2 hlen2
      simp only [collectPages]
      rw [hgm2]
      simp only [List.map_cons, List.flatten_cons, if_true, List.reverse_reverse]
      rw [hrec]
      exact List.take_append_drop limit suf

/-- C4 (amended): `getMessages` fetches `limit + 1` live messages ordered by
`createdAt` descending only — the source has no secondary tiebreak on message
id (see the counterexample) — pops the extra row for `hasMore`, returns the
page ascending with `nextCursor` the id of the oldest (first) returned message
when `hasMore` and `null` otherwise; and when the message ids of the query are
distinct, following `nextCursor` tiles the full query: the pages, assembled
oldest-chunk-last (each page read newest-first), concatenate to exactly the
descending query, whose reverse is what a single unlimited call returns. -/
theorem C4_pagination (st : Store) (convId : ConvId) (userId : UserId)
    (limit fuel : Nat)
    (hpart : isParticipant st convId userId = true)
    (hlim : 0 < limit)
    (hids : (queryMessagesDesc st.messages convId).Pairwise (fun a b => a.id ≠ b.id))
    (hfuel : (queryMessagesDesc st.messages convId).length ≤ fuel * limit) :
    (∀ cursor page, getMessages st convId userId cursor limit = Except.ok page →
      page.messages.Pairwise (fun a b => a.createdAt ≤ b.createdAt) ∧
      page.messages.length ≤ limit ∧
      (page.hasMore = true → page.nextCursor = page.messages.head?.map (fun m => m.id)) ∧
      (page.hasMore = false → page.nextCursor = none)) ∧
    ((collectPages st convId userId fuel none limit).map List.reverse).flatten =
      queryMessagesDesc st.messages convId ∧
    (∀ n, (queryMessagesDesc st.messages convId).length ≤ n →
      getMessages st convId userId none n =
        Except.ok { messages := (queryMessagesDesc st.messages convId).reverse,
                    hasMore := false, nextCursor := none }) := by
  refine ⟨?_, ?_, ?_⟩
  · intro cursor page hok
    rw [getMessages_eq st convId userId cursor limit
      (afterCursor (queryMessagesDesc st.messages convId) cursor) hpart rfl] at hok
    injection hok with hok
    subst hok
    have h1 : ((afterCursor (queryMessagesDesc st.messages convId) cursor).take
        (limit + 1)).Sublist (queryMessagesDesc st.messages convId) :=
      (List.take_sublist _ _).trans (afterCursor_sublist _ _)
    have hlentake := List.length_take (limit + 1)
      (afterCursor (queryMessagesDesc st.messages convId) cursor)
    by_cases hcond : limit <
        ((afterCursor (queryMessagesDesc st.messages convId) cursor).take (limit + 1)).length
    · refine ⟨?_, ?_, ?_, ?_⟩
      · dsimp only
        rw [if_pos hcond, List.pairwise_reverse]
        exact List.Pairwise.sublist ((List.dropLast_sublist _).trans h1)
          (queryMessagesDesc_sorted st.messages convId)
      · dsimp only
        rw [if_pos hcond, List.length_reverse, List.length_dropLast]
        omega
      · intro hmore
        dsimp only
        rw [if_pos hcond, if_pos hcond]
      · intro hnomore
        dsimp only at hnomore
        rw [decide_eq_true hcond] at hnomore
        exact Bool.noConfusion hnomore
    · refine ⟨?_, ?_, ?_, ?_⟩
      · dsimp only
        rw [if_neg hcond, List.pairwise_reverse]
        exact List.Pairwise.sublist h1 (queryMessagesDesc_sorted st.messages convId)
      · dsimp only
        rw [if_neg hcond, List.length_reverse]
        omega
      · intro hmore
        dsimp only at hmore
        rw [decide_eq_false hcond] at hmore
        exact Bool.noConfusion hmore
      · intro hnomore
        dsimp only
        rw [if_neg hcond]
  · exact collectPages_tile st convId userId limit hpart hlim hids fuel none []
      (queryMessagesDesc st.messages convId) (by simp) rfl hfuel
  · intro n hn
    rw [getMessages_eq st convId userId none n
      (queryMessagesDesc st.messages convId) hpart rfl]
    have htake : (queryMessagesDesc st.messages convId).take (n + 1) =
        queryMessagesDesc st.messages convId := List.take_of_length_le (by omega)
    have hcond : ¬ (n < (queryMessagesDesc st.messages convId).length) := by omega
    simp [htake, hcond]

/-- C4 witness: on `c4Store` with page size 2 and fuel 2 the hypotheses hold
and the collected pages tile the full query. -/
theorem C4_pagination_witness :
    isParticipant c4Store "c" "u" = true ∧
    0 < 2 ∧
    (queryMessagesDesc c4Store.messages "c").Pairwise (fun a b => a.id ≠ b.id) ∧
    (queryMessagesDesc c4Store.messages "c").length ≤ 2 * 2 ∧
    ((collectPages c4Store "c" "u" 2 none 2).map List.reverse).flatten =
      queryMessagesDesc c4Store.messages "c" :=
  ⟨by decide, by decide, by decide, by decide,
    (C4_pagination c4Store "c" "u" 2 2 (by decide) (by decide) (by decide) (by decide)).2.1⟩

/-! ## Direct conversations (`conversation.service.ts`) -/

/-- The existence query of `getOrCreateDirectConversation`: a DIRECT
conversation having a participant row for `u1` AND one for `u2`. -/
def directExistsPred (st : Store) (u1 u2 : UserId) (c : Conversation) : Bool :=
  c.type == ConvType.DIRECT &&
  st.participants.any (fun p => p.conversationId == c.id && p.userId == u1) &&
  st.participants.any (fun p => p.conversationId == c.id && p.userId == u2)

/-- `getOrCreateDirectConversation`: reject self-conversations, return the
first DIRECT conversation containing both users if one exists, else verify
the target user and insert a fresh DIRECT conversation with exactly two
participant rows.  The generated conversation id is passed in explicitly. -/
def getOrCreateDirectConversation (st : Store) (u1 u2 : UserId) (newConvId : ConvId)
    (now : Time) : Except AppError (ConvId × Store) :=
  if u1 == u2 then
    Except.error (AppError.validation "Cannot create conversation with yourself")
  else
    match st.conversations.find? (directExistsPred st u1 u2) with
    | some c => Except.ok (c.id, st)
    | none =>
      if !(st.users.any (fun u => u.id == u2)) then
        Except.error (AppError.notFound "User not found")
      else
        Except.ok (newConvId,
          { st with
            conversations := st.conversations ++
              [{ id := newConvId, type := ConvType.DIRECT, updatedAt := now }],
            participants := st.participants ++
              [{ conversationId := newConvId, userId := u1, role := Role.MEMBER,
                 joinedAt := now, lastReadAt := none },
               { conversationId := newConvId, userId := u2, role := Role.MEMBER,
                 joinedAt := now, lastReadAt := none }] })

theorem list_find?_congr {α : Type} {p q : α → Bool} (l : List α)
    (h : ∀ x, p x = q x) : l.find? p = l.find? q := by
  induction l with
  | nil => rfl
  | cons x xs ih =>
    rw [List.find?_cons, List.find?_cons, h x]
    cases q x with
    | true => rfl
    | false => exact ih

theorem directExistsPred_symm (st : Store) (u1 u2 : UserId) (c : Conversation) :
    directExistsPred st u1 u2 c = directExistsPred st u2 u1 c := by
  unfold directExistsPred
  cases c.type == ConvType.DIRECT <;>
    cases ha : st.participants.any (fun p => p.conversationId == c.id && p.userId == u1) <;>
    cases hb : st.participants.any (fun p => p.conversationId == c.id && p.userId == u2) <;>
    simp [ha, hb]

/-- C5: `getOrCreateDirectConversation` fails validation on a
self-conversation; is symmetric in the two users (same conversation id back);
is idempotent (a repeat returns the same id and leaves the store unchanged);
returns an existing DIRECT conversation without creating anything; and
creates a DIRECT conversation with exactly the two participant rows only when
none containing both users exists. -/
theorem C5_get_or_create_direct (st : Store) (u1 u2 : UserId) (newConvId : ConvId)
    (now now2 : Time) (nid2 : ConvId)
    (hne : u1 ≠ u2)
    (hu1 : st.users.any (fun u => u.id == u1) = true)
    (hu2 : st.users.any (fun u => u.id == u2) = true)
    (hfresh : ∀ c ∈ st.conversations, c.id ≠ newConvId) :
    (∀ u : UserId, ∀ nid : ConvId,
      getOrCreateDirectConversation st u u nid now =
        Except.error (AppError.validation "Cannot create conversation with yourself")) ∧
    (∃ cid st1 st2,
      getOrCreateDirectConversation st u1 u2 newConvId now = Except.ok (cid, st1) ∧
      getOrCreateDirectConversation st u2 u1 newConvId now = Except.ok (cid, st2)) ∧
    (∀ cid st1,
      getOrCreateDirectConversation st u1 u2 newConvId now = Except.ok (cid, st1) →
      getOrCreateDirectConversation st1 u1 u2 nid2 now2 = Except.ok (cid, st1)) ∧
    (∀ c, st.conversations.find? (directExistsPred st u1 u2) = some c →
      getOrCreateDirectConversation st u1 u2 newConvId now = Except.ok (c.id, st)) ∧
    (st.conversations.find? (directExistsPred st u1 u2) = none →
      getOrCreateDirectConversation st u1 u2 newConvId now =
        Except.ok (newConvId,
          { st with
            conversations := st.conversations ++
              [{ id := newConvId, type := ConvType.DIRECT, updatedAt := now }],
            participants := st.participants ++
              [{ conversationId := newConvId, userId := u1, role := Role.MEMBER,
                 joinedAt := now, lastReadAt := none },
               { conversationId := newConvId, userId := u2, role := Role.MEMBER,
                 joinedAt := now, lastReadAt := none }] })) := by
  have hbne1 : ¬((u1 == u2) = true) := by simpa using hne
  have hbne2 : ¬((u2 == u1) = true) := by simpa using Ne.symm hne
  have hsym : st.conversations.find? (directExistsPred st u2 u1) =
      st.conversations.find? (directExistsPred st u1 u2) :=
    list_find?_congr _ (fun c => directExistsPred_symm st u2 u1 c)
  have hfound : ∀ c, st.conversations.find? (directExistsPred st u1 u2) = some c →
      getOrCreateDirectConversation st u1 u2 newConvId now = Except.ok (c.id, st) := by
    intro c hf
    unfold getOrCreateDirectConversation
    rw [if_neg hbne1, hf]
  have hcreate : st.conversations.find? (directExistsPred st u1 u2) = none →
      getOrCreateDirectConversation st u1 u2 newConvId now =
        Except.ok (newConvId,
          { st with
            conversations := st.conversations ++
              [{ id := newConvId, type := ConvType.DIRECT, updatedAt := now }],
            participants := st.participants ++
              [{ conversationId := newConvId, userId := u1, role := Role.MEMBER,
                 joinedAt := now, lastReadAt := none },
               { conversationId := newConvId, userId := u2, role := Role.MEMBER,
                 joinedAt := now, lastReadAt := none }] }) := by
    intro hf
    unfold getOrCreateDirectConversation
    rw [if_neg hbne1, hf]
    dsimp only
    rw [if_neg (by simpa using hu2)]
  refine ⟨?_, ?_, ?_, hfound, hcreate⟩
  · intro u nid
    unfold getOrCreateDirectConversation
    rw [if_pos (by simp)]
  · cases hf : st.conversations.find? (directExistsPred st u1 u2) with
    | some c =>
      refine ⟨c.id, st, st, hfound c hf, ?_⟩
      unfold getOrCreateDirectConversation
      rw [if_neg hbne2, hsym, hf]
    | none =>
      refine ⟨newConvId, _,
        { st with
          conversations := st.conversations ++
            [{ id := newConvId, type := ConvType.DIRECT, updatedAt := now }],
          participants := st.participants ++
            [{ conversationId := newConvId, userId := u2, role := Role.MEMBER,
               joinedAt := now, lastReadAt := none },
             { conversationId := newConvId, userId := u1, role := Role.MEMBER,
               joinedAt := now, lastReadAt := none }] },
        hcreate hf, ?_⟩
      unfold getOrCreateDirectConversation
      rw [if_neg hbne2, hsym, hf]
      dsimp only
      rw [if_neg (by simpa using hu1)]
  · intro cid st1 hok
    cases hf : st.conversations.find? (directExistsPred st u1 u2) with
    | some c =>
      rw [hfound c hf] at hok
      injection hok with hok
      rw [Prod.mk.injEq] at hok
      obtain ⟨hcid, hst⟩ := hok
      subst hcid
      subst hst
      unfold getOrCreateDirectConversation
      rw [if_neg hbne1, hf]
    | none =>
      rw [hcreate hf] at hok
      injection hok with hok
      rw [Prod.mk.injEq] at hok
      obtain ⟨hcid, hst⟩ := hok
      subst hcid
      subst hst
      unfold getOrCreateDirectConversation
      rw [if_neg hbne1]
      have hold : st.conversations.find?
          (directExistsPred
            { st with
              conversations := st.conversations ++
                [{ id := newConvId, type := ConvType.DIRECT, updatedAt := now }],
              participants := st.participants ++
                [{ conversationId := newConvId, userId := u1, role := Role.MEMBER,
                   joinedAt := now, lastReadAt := none },
                 { conversationId := newConvId, userId := u2, role := Role.MEMBER,
                   joinedAt := now, lastReadAt := none }] } u1 u2) = none := by
        rw [List.find?_eq_none]
        intro c hc
        have hcid : c.id ≠ newConvId := hfresh c hc
        have hpred : directExistsPred
            { st with
              conversations := st.conversations ++
                [{ id := newConvId, type := ConvType.DIRECT, updatedAt := now }],
              participants := st.participants ++
                [{ conversationId := newConvId, userId := u1, role := Role.MEMBER,
                   joinedAt := now, lastReadAt := none },
                 { conversationId := newConvId, userId := u2, role := Role.MEMBER,
                   joinedAt := now, lastReadAt := none }] } u1 u2 c =
            directExistsPred st u1 u2 c := by
          unfold directExistsPred
          dsimp only
          rw [List.any_append, List.any_append]
          have hr1 : ([{ conversationId := newConvId, userId := u1, role := Role.MEMBER,
                         joinedAt := now, lastReadAt := none },
                       { conversationId := newConvId, userId := u2, role := Role.MEMBER,
                         joinedAt := now, lastReadAt := none }] : List Participant).any
              (fun p => p.conversationId == c.id && p.userId == u1) = false := by
            simp [Ne.symm hcid]
          have hr2 : ([{ conversationId := newConvId, userId := u1, role := Role.MEMBER,
                         joinedAt := now, lastReadAt := none },
                       { conversationId := newConvId, userId := u2, role := Role.MEMBER,
                         joinedAt := now, lastReadAt := none }] : List Participant).any
              (fun p => p.conversationId == c.id && p.userId == u2) = false := by
            simp [Ne.symm hcid]
          rw [hr1, hr2, Bool.or_false, Bool.or_false]
        rw [hpred]
        exact List.find?_eq_none.mp hf c hc
      have hnewpred : directExistsPred
          { st with
            conversations := st.conversations ++
              [{ id := newConvId, type := ConvType.DIRECT, updatedAt := now }],
            participants := st.participants ++
              [{ conversationId := newConvId, userId := u1, role := Role.MEMBER,
                 joinedAt := now, lastReadAt := none },
               { conversationId := newConvId, userId := u2, role := Role.MEMBER,
                 joinedAt := now, lastReadAt := none }] } u1 u2
          { id := newConvId, type := ConvType.DIRECT, updatedAt := now } = true := by
        simp [directExistsPred, List.any_append]
      have hfind2 : List.find?
          (directExistsPred
            { st with
              conversations := st.conversations ++
                [{ id := newConvId, type := ConvType.DIRECT, updatedAt := now }],
              participants := st.participants ++
                [{ conversationId := newConvId, userId := u1, role := Role.MEMBER,
                   joinedAt := now, lastReadAt := none },
                 { conversationId := newConvId, userId := u2, role := Role.MEMBER,
                   joinedAt := now, lastReadAt := none }] } u1 u2)
          (st.conversations ++
            [{ id := newConvId, type := ConvType.DIRECT, updatedAt := now }]) =
          some { id := newConvId, type := ConvType.DIRECT, updatedAt := now } := by
        rw [List.find?_append, hold]
        rw [List.find?_cons]
        rw [hnewpred]
        rfl
      dsimp only
      rw [hfind2]

/-- Store for the C5 witness: two users, no conversations yet. -/
def c5Store : Store :=
  { users := [{ id := "alice", displayName := "Alice" },
              { id := "bob", displayName := "Bob" }],
    conversations := [], participants := [], messages := [], receipts := [],
    groups := [] }

/-- C5 witness: on `c5Store` the symmetry conjunct produces the same fresh
conversation id for `(alice, bob)` and `(bob, alice)`. -/
theorem C5_get_or_create_direct_witness :
    ("alice" : String) ≠ "bob" ∧
    (c5Store.users.any (fun u => u.id == "alice")) = true ∧
    (c5Store.users.any (fun u => u.id == "bob")) = true ∧
    (∀ c ∈ c5Store.conversations, c.id ≠ "conv1") ∧
    (∃ cid st1 st2,
      getOrCreateDirectConversation c5Store "alice" "bob" "conv1" 7 =
        Except.ok (cid, st1) ∧
      getOrCreateDirectConversation c5Store "bob" "alice" "conv1" 7 =
        Except.ok (cid, st2)) :=
  ⟨by decide, by decide, by decide, by decide,
    (C5_get_or_create_direct c5Store "alice" "bob" "conv1" 7 8 "conv2"
      (by decide) (by decide) (by decide) (by decide)).2.1⟩

/-! ## Connection hub and presence broadcasting -/

/-- Modelled from the spec: a live connection entry of the hub.
`ws/connectionManager.ts` itself is not among the source files (only its
callers and the build notes are); §4.5 of the spec describes the hub as
`connectionId → {socket, userId?}` plus a derived per-user index. -/
structure Conn where
  connId : ConnId
  userId : Option UserId
deriving DecidableEq, Repr

/-- Modelled from the spec: `connectionManager.authenticate(connId, userId)`
sets the `userId` of that connection. -/
def hubAuthenticate (hub : List Conn) (cid : ConnId) (uid : UserId) : List Conn :=
  hub.map (fun c => if c.connId == cid then { c with userId := some uid } else c)

/-- Modelled from the spec: `connectionManager.remove(connId)` drops the
entry from both indices and returns the now-detached userId when one was
set. -/
def hubRemove (hub : List Conn) (cid : ConnId) : Option UserId × List Conn :=
  ((hub.find? (fun c => c.connId == cid)).bind (fun c => c.userId),
   hub.filter (fun c => c.connId != cid))

/-- Modelled from the spec: `isUserOnline(userId)` — the user has at least
one live connection. -/
def isUserOnline (hub : List Conn) (uid : UserId) : Bool :=
  hub.any (fun c => c.userId == some uid)

inductive WsEvent
  | connOpen (cid : ConnId)
  | authOk (cid : ConnId) (uid : UserId)
  | connClose (cid : ConnId)
deriving DecidableEq, Repr

/-- A `presence:update` broadcast about `about` (online or offline with
lastSeen, which we elide). -/
structure PresenceFrame where
  about : UserId
  online : Bool
deriving DecidableEq, Repr

/-- One hub event.  From the source: `handleWsAuth` (src/unnamed/part_008)
authenticates the connection and then unconditionally calls
`broadcastPresence(userId, "online")` on every successful token verification;
the close handler of `ws/index.ts` removes the connection and broadcasts
offline only when `isUserOnline` reports false afterwards. -/
def wsStep (hub : List Conn) : WsEvent → List Conn × List PresenceFrame
  | WsEvent.connOpen cid => (hub ++ [{ connId := cid, userId := none }], [])
  | WsEvent.authOk cid uid =>
    (hubAuthenticate hub cid uid, [{ about := uid, online := true }])
  | WsEvent.connClose cid =>
    match (hubRemove hub cid).1 with
    | some uid =>
      ((hubRemove hub cid).2,
       if isUserOnline (hubRemove hub cid).2 uid then []
       else [{ about := uid, online := false }])
    | none => ((hubRemove hub cid).2, [])

/-- Run a trace of hub events, collecting all presence broadcasts. -/
def runWs (hub : List Conn) : List WsEvent → List Conn × List PresenceFrame
  | [] => (hub, [])
  | e :: es =>
    ((runWs (wsStep hub e).1 es).1,
     (wsStep hub e).2 ++ (runWs (wsStep hub e).1 es).2)

/-- C6 counterexample: Alice authenticates on two connections; her
conversation-neighbors are sent TWO `presence:update{online}` frames, not
one — the online broadcast runs on every successful auth, not only the
first.  The offline half behaves as claimed: closing the first connection
emits nothing, closing the last emits a single offline frame. -/
theorem C6_counterexample :
    (runWs [] [WsEvent.connOpen "c1", WsEvent.authOk "c1" "alice",
               WsEvent.connOpen "c2", WsEvent.authOk "c2" "alice"]).2 =
      [{ about := "alice", online := true }, { about := "alice", online := true }] ∧
    (runWs [] [WsEvent.connOpen "c1", WsEvent.authOk "c1" "alice",
               WsEvent.connOpen "c2", WsEvent.authOk "c2" "alice"]).2.countP
        (fun f => f.about == "alice" && f.online) = 2 ∧
    (2 : Nat) ≠ 1 ∧
    (runWs [] [WsEvent.connOpen "c1", WsEvent.authOk "c1" "alice",
               WsEvent.connOpen "c2", WsEvent.authOk "c2" "alice",
               WsEvent.connClose "c1", WsEvent.connClose "c2"]).2 =
      [{ about := "alice", online := true }, { about := "alice", online := true },
       { about := "alice", online := false }] := by decide

theorem runWs_online_count (uid : UserId) :
    ∀ (es : List WsEvent) (hub : List Conn),
      (runWs hub es).2.countP (fun f => f.about == uid && f.online) =
        es.countP (fun e => match e with
          | WsEvent.authOk _ u => u == uid
          | _ => false) := by
  intro es
  induction es with
  | nil => intro hub; rfl
  | cons e es ih =>
    intro hub
    simp only [runWs]
    rw [List.countP_append, ih ((wsStep hub e).1), List.countP_cons]
    cases e with
    | connOpen cid => simp [wsStep, Nat.add_comm]
    | authOk cid u =>
      by_cases h : u = uid <;> simp [wsStep, h, Nat.add_comm]
    | connClose cid =>
      cases hb : (hubRemove hub cid).1 with
      | none => simp [wsStep, hb, Nat.add_comm]
      | some u2 =>
        by_cases ho : isUserOnline (hubRemove hub cid).2 u2 <;>
          simp [wsStep, hb, ho, Nat.add_comm]

/-- C6 (amended): a `presence:update{online}` broadcast goes out on EVERY
successful authentication — so a user with k live connections generates k
online frames, one per auth, not a single one on the first; over any event
trace the online frames for u are exactly as many as u's successful auths;
and closing a connection of u emits nothing while another connection of u
survives, and a single offline frame when the last one closes. -/
theorem C6_presence_per_auth (hub : List Conn) (es : List WsEvent) (cid : ConnId)
    (uid : UserId) (c0 : Conn)
    (hfind : hub.find? (fun c => c.connId == cid) = some c0)
    (hc0 : c0.userId = some uid) :
    ((wsStep hub (WsEvent.authOk cid uid)).2 = [{ about := uid, online := true }]) ∧
    ((runWs hub es).2.countP (fun f => f.about == uid && f.online) =
      es.countP (fun e => match e with
        | WsEvent.authOk _ u => u == uid
        | _ => false)) ∧
    ((∃ c ∈ hub, c.connId ≠ cid ∧ c.userId = some uid) →
      (wsStep hub (WsEvent.connClose cid)).2 = []) ∧
    ((∀ c ∈ hub, c.userId = some uid → c.connId = cid) →
      (wsStep hub (WsEvent.connClose cid)).2 =
        [{ about := uid, online := false }]) := by
  have hb : (hubRemove hub cid).1 = some uid := by
    simp [hubRemove, hfind, hc0]
  refine ⟨rfl, runWs_online_count uid es hub, ?_, ?_⟩
  · rintro ⟨c, hcmem, hcne, hcuid⟩
    have honline : isUserOnline (hubRemove hub cid).2 uid = true := by
      apply List.any_eq_true.mpr
      exact ⟨c, List.mem_filter.mpr ⟨hcmem, by simp [hcne]⟩, by simp [hcuid]⟩
    simp [wsStep, hb, honline]
  · intro hall
    have hoff : isUserOnline (hubRemove hub cid).2 uid = false := by
      apply List.any_eq_false.mpr
      intro c hcmem hp
      have hm := List.mem_filter.mp hcmem
      have hcuid : c.userId = some uid := by simpa using hp
      have hccid := hall c hm.1 hcuid
      rw [hccid] at hm
      simp at hm
    simp [wsStep, hb, hoff]

/-- C6 witness: a hub with two of alice's connections; authenticating emits
one online frame, closing `c1` while `c2` survives emits nothing. -/
theorem C6_presence_per_auth_witness :
    (([{ connId := "c1", userId := some "alice" },
       { connId := "c2", userId := some "alice" }] : List Conn).find?
        (fun c => c.connId == "c1") =
      some { connId := "c1", userId := some "alice" }) ∧
    (({ connId := "c1", userId := some "alice" } : Conn).userId = some "alice") ∧
    ((wsStep [{ connId := "c1", userId := some "alice" },
              { connId := "c2", userId := some "alice" }]
        (WsEvent.authOk "c1" "alice")).2 =
      [{ about := "alice", online := true }]) ∧
    ((∃ c ∈ ([{ connId := "c1", userId := some "alice" },
              { connId := "c2", userId := some "alice" }] : List Conn),
        c.connId ≠ "c1" ∧ c.userId = some "alice") →
      (wsStep [{ connId := "c1", userId := some "alice" },
               { connId := "c2", userId := some "alice" }]
          (WsEvent.connClose "c1")).2 = []) :=
  ⟨by decide, rfl,
    (C6_presence_per_auth
      [{ connId := "c1", userId := some "alice" },
       { connId := "c2", userId := some "alice" }] [] "c1" "alice"
      { connId := "c1", userId := some "alice" } (by decide) rfl).1,
    (C6_presence_per_auth
      [{ connId := "c1", userId := some "alice" },
       { connId := "c2", userId := some "alice" }] [] "c1" "alice"
      { connId := "c1", userId := some "alice" } (by decide) rfl).2.2.1⟩

/-! ## Frame dispatcher (`dispatcher.ts`, src/unnamed/part_006) -/

/-- A parsed frame payload, after the envelope schema accepted the raw JSON;
`other` stands for any payload shape fitting none of the four typed
schemas. -/
inductive WsPayload
  | auth (token : String)
  | chatSend (conversationId : ConvId) (content : String)
      (contentType : Option String) (replyToMessageId : Option MsgId)
  | chatRead (conversationId : ConvId) (messageId : MsgId)
  | typing (conversationId : ConvId) (isTyping : Bool)
  | other
deriving DecidableEq, Repr

/-- The frame envelope `{id, type, payload, timestamp}`. -/
structure Envelope where
  id : String
  type : String
  payload : WsPayload
  timestamp : Int
deriving DecidableEq, Repr

inductive HandlerCall
  | auth (token : String)
  | chatSend (conversationId : ConvId) (content : String)
      (contentType : Option String) (replyToMessageId : Option MsgId)
      (clientMessageId : String)
  | chatRead (conversationId : ConvId) (messageId : MsgId)
  | typing (conversationId : ConvId) (isTyping : Bool)
deriving DecidableEq, Repr

inductive DispatchAction
  | sendErr (code : String) (replyTo : Option String)
  | invoke (h : HandlerCall)
deriving DecidableEq, Repr

/-- `dispatch` from dispatcher.ts over a connection with the given
authentication state.  `none` models a raw text that fails JSON parsing or
the envelope schema (one shared catch in the source).  The per-type zod
schemas are the payload constructor checks; `chat:send` additionally requires
non-empty content (`z.string().min(1)`). -/
def dispatch (authenticated : Bool) (frame : Option Envelope) : DispatchAction :=
  match frame with
  | none => DispatchAction.sendErr "INVALID_MESSAGE" none
  | some f =>
    if f.type != "auth" && !authenticated then
      DispatchAction.sendErr "NOT_AUTHENTICATED" (some f.id)
    else if f.type == "auth" then
      match f.payload with
      | WsPayload.auth tok => DispatchAction.invoke (HandlerCall.auth tok)
      | _ => DispatchAction.sendErr "INVALID_PAYLOAD" (some f.id)
    else if f.type == "chat:send" then
      match f.payload with
      | WsPayload.chatSend c s ct r =>
        if s.length == 0 then DispatchAction.sendErr "INVALID_PAYLOAD" (some f.id)
        else DispatchAction.invoke (HandlerCall.chatSend c s ct r f.id)
      | _ => DispatchAction.sendErr "INVALID_PAYLOAD" (some f.id)
    else if f.type == "chat:read" then
      match f.payload with
      | WsPayload.chatRead c m => DispatchAction.invoke (HandlerCall.chatRead c m)
      | _ => DispatchAction.sendErr "INVALID_PAYLOAD" (some f.id)
    else if f.type == "chat:typing" then
      match f.payload with
      | WsPayload.typing c b => DispatchAction.invoke (HandlerCall.typing c b)
      | _ => DispatchAction.sendErr "INVALID_PAYLOAD" (some f.id)
    else
      DispatchAction.sendErr "UNKNOWN_TYPE" (some f.id)

/-- C7: a parse or envelope-schema failure is answered with
`INVALID_MESSAGE`; an unauthenticated connection sending any non-`auth` frame
gets `NOT_AUTHENTICATED` carrying `replyTo = frame.id` and no handler runs
(the result is an error frame, not an invocation); and on an authenticated
connection a well-formed frame whose type is none of the four known ones gets
`UNKNOWN_TYPE` (on an unauthenticated one the authentication gate answers
first, per the second clause). -/
theorem C7_dispatcher (f : Envelope) :
    (∀ authenticated, dispatch authenticated none =
      DispatchAction.sendErr "INVALID_MESSAGE" none) ∧
    (f.type ≠ "auth" →
      dispatch false (some f) =
        DispatchAction.sendErr "NOT_AUTHENTICATED" (some f.id)) ∧
    (f.type ∉ (["auth", "chat:send", "chat:read", "chat:typing"] : List String) →
      dispatch true (some f) = DispatchAction.sendErr "UNKNOWN_TYPE" (some f.id)) := by
  refine ⟨fun _ => rfl, ?_, ?_⟩
  · intro h
    unfold dispatch
    dsimp only
    rw [if_pos (by simp [h])]
  · intro h
    have h1 : f.type ≠ "auth" := fun hh => h (by simp [hh])
    have h2 : f.type ≠ "chat:send" := fun hh => h (by simp [hh])
    have h3 : f.type ≠ "chat:read" := fun hh => h (by simp [hh])
    have h4 : f.type ≠ "chat:typing" := fun hh => h (by simp [hh])
    simp [dispatch, h1, h2, h3, h4]

/-- The C7 witness frame: unknown type `bogus`. -/
def c7Frame : Envelope :=
  { id := "f1", type := "bogus", payload := WsPayload.other, timestamp := 0 }

/-- C7 witness: a frame of unknown type `bogus` on an unauthenticated and on
an authenticated connection. -/
theorem C7_dispatcher_witness :
    (c7Frame.type ≠ "auth" ∧
      dispatch false (some c7Frame) =
        DispatchAction.sendErr "NOT_AUTHENTICATED" (some "f1")) ∧
    (c7Frame.type ∉ (["auth", "chat:send", "chat:read", "chat:typing"] : List String) ∧
      dispatch true (some c7Frame) =
        DispatchAction.sendErr "UNKNOWN_TYPE" (some "f1")) :=
  ⟨⟨by decide, (C7_dispatcher c7Frame).2.1 (by decide)⟩,
   ⟨by decide, (C7_dispatcher c7Frame).2.2 (by decide)⟩⟩

/-! ## Message persistence (`sendMessage` in message.service.ts) -/

/-- JS `String.prototype.toUpperCase` restricted to the ASCII strings the
enum check cares about (Lean's own `String.toUpper` is semantically the same
here but does not reduce in the kernel). -/
def toUpperString (s : String) : String := String.mk (s.data.map Char.toUpper)

/-- chat.handler.ts passes `payload.contentType ?? "TEXT"` and the service
parameter itself defaults to `"TEXT"`. -/
def contentTypeOrDefault (ct? : Option String) : String := ct?.getD "TEXT"

/-- The message row `prisma.message.create` inserts. -/
def storedMessage (senderId : UserId) (convId : ConvId) (content : String)
    (ct : ContentType) (replyToId : Option MsgId) (newMsgId : MsgId)
    (now : Time) : Message :=
  { id := newMsgId, conversationId := convId, senderId := senderId,
    content := content, contentType := ct, replyToId := replyToId,
    createdAt := now, deletedAt := none }

/-- `sendMessage` from message.service.ts: participant gate, reply-to check
(the referenced message must exist in the same conversation), persist the
message with `contentType.toUpperCase()` — the store's enum check rejects a
non-member value, in which case nothing is inserted — then bump the owning
conversation's `updatedAt` to the server clock.  The generated message id
and the clock are explicit parameters. -/
def sendMessage (st : Store) (senderId : UserId) (convId : ConvId)
    (content : String) (contentType : String) (replyToId : Option MsgId)
    (newMsgId : MsgId) (now : Time) : Except AppError Message × Store :=
  if !(isParticipant st convId senderId) then
    (Except.error (AppError.forbidden "Not a participant of this conversation"), st)
  else
    let replyOk : Bool :=
      match replyToId with
      | none => true
      | some rid =>
        match st.messages.find? (fun m => m.id == rid) with
        | none => false
        | some rm => rm.conversationId == convId
    if !replyOk then
      (Except.error (AppError.notFound "Reply-to message not found in this conversation"),
       st)
    else
      match parseContentType (toUpperString contentType) with
      | none => (Except.error (AppError.internal "Invalid contentType enum value"), st)
      | some ct =>
        (Except.ok (storedMessage senderId convId content ct replyToId newMsgId now),
         { st with
           messages := st.messages ++
             [storedMessage senderId convId content ct replyToId newMsgId now],
           conversations := st.conversations.map (fun c =>
             if c.id == convId then { c with updatedAt := now } else c) })

/-- C9: a message persisted through `sendMessage` stores the uppercased form
of the supplied contentType, which must be a member of the enum (otherwise
the persist fails and the store is unchanged); the absent contentType
defaults to `TEXT`; and the owning conversation's `updatedAt` rows advance to
the server clock in the same send while other conversations are untouched. -/
theorem C9_send_message (st : Store) (senderId : UserId) (convId : ConvId)
    (content : String) (contentType : String) (newMsgId : MsgId) (now : Time)
    (hpart : isParticipant st convId senderId = true) :
    (∀ ct, parseContentType (toUpperString contentType) = some ct →
      sendMessage st senderId convId content contentType none newMsgId now =
        (Except.ok (storedMessage senderId convId content ct none newMsgId now),
         { st with
           messages := st.messages ++
             [storedMessage senderId convId content ct none newMsgId now],
           conversations := st.conversations.map (fun c =>
             if c.id == convId then { c with updatedAt := now } else c) })) ∧
    (∀ c ∈ (sendMessage st senderId convId content contentType none newMsgId now).2.conversations,
      ((sendMessage st senderId convId content contentType none newMsgId now).1.isOk = true →
        c.id = convId → c.updatedAt = now) ∧
      (c.id ≠ convId → c ∈ st.conversations)) ∧
    (contentTypeOrDefault none = "TEXT" ∧
      parseContentType (toUpperString "TEXT") = some ContentType.TEXT) ∧
    (parseContentType (toUpperString contentType) = none →
      sendMessage st senderId convId content contentType none newMsgId now =
        (Except.error (AppError.internal "Invalid contentType enum value"), st)) := by
  have hmain : sendMessage st senderId convId content contentType none newMsgId now =
      (match parseContentType (toUpperString contentType) with
       | none => (Except.error (AppError.internal "Invalid contentType enum value"), st)
       | some ct =>
         (Except.ok (storedMessage senderId convId content ct none newMsgId now),
          { st with
            messages := st.messages ++
              [storedMessage senderId convId content ct none newMsgId now],
            conversations := st.conversations.map (fun c =>
              if c.id == convId then { c with updatedAt := now } else c) })) := by
    unfold sendMessage
    rw [if_neg (by simp [hpart])]
    dsimp only
    cases parseContentType (toUpperString contentType) with
    | none => rfl
    | some ct => rfl
  refine ⟨?_, ?_, ⟨rfl, by decide⟩, ?_⟩
  · intro ct hct
    rw [hmain, hct]
  · intro c hc
    cases hp : parseContentType (toUpperString contentType) with
    | none =>
      rw [hmain, hp] at hc
      dsimp only at hc
      refine ⟨?_, fun _ => hc⟩
      intro hok
      rw [hmain, hp] at hok
      exact Bool.noConfusion hok
    | some v =>
      rw [hmain, hp] at hc
      dsimp only at hc
      obtain ⟨q, hq, hfq⟩ := List.mem_map.mp hc
      constructor
      · intro _ hcid
        by_cases hcond : (q.id == convId) = true
        · rw [if_pos hcond] at hfq
          rw [← hfq]
        · rw [if_neg hcond] at hfq
          subst hfq
          simp [hcid] at hcond
      · intro hcne
        by_cases hcond : (q.id == convId) = true
        · rw [if_pos hcond] at hfq
          subst hfq
          simp at hcond
          exact absurd hcond hcne
        · rw [if_neg hcond] at hfq
          subst hfq
          exact hq
  · intro hnone
    rw [hmain, hnone]

/-- Store for the C9 witness: one conversation with participant `u`. -/
def c9Store : Store :=
  { users := [],
    conversations := [{ id := "c", type := ConvType.DIRECT, updatedAt := 0 }],
    participants := [{ conversationId := "c", userId := "u", role := Role.MEMBER,
                       joinedAt := 0, lastReadAt := none }],
    messages := [], receipts := [], groups := [] }

/-- C9 witness: sending with lowercase contentType `image` stores `IMAGE` and
bumps the conversation's `updatedAt` to the send clock. -/
theorem C9_send_message_witness :
    isParticipant c9Store "c" "u" = true ∧
    parseContentType (toUpperString "image") = some ContentType.IMAGE ∧
    sendMessage c9Store "u" "c" "pic" "image" none "m1" 9 =
      (Except.ok (storedMessage "u" "c" "pic" ContentType.IMAGE none "m1" 9),
       { c9Store with
         messages := c9Store.messages ++
           [storedMessage "u" "c" "pic" ContentType.IMAGE none "m1" 9],
         conversations := c9Store.conversations.map (fun c =>
           if c.id == "c" then { c with updatedAt := 9 } else c) }) :=
  ⟨by decide, by decide,
    (C9_send_message c9Store "u" "c" "pic" "image" "m1" 9 (by decide)).1
      ContentType.IMAGE (by decide)⟩

/-! ## Group service (`group.service.ts`) -/

/-- JS `[...new Set(creatorId, ...memberIds)]`: deduplicate keeping first
occurrences. -/
def firstDedup : List UserId → List UserId
  | [] => []
  | x :: xs => x :: firstDedup (xs.filter (fun y => y != x))
termination_by l => l.length
decreasing_by
  simp only [List.length_cons]
  exact Nat.lt_succ_of_le (List.length_filter_le _ _)

/-- `requireAdmin` from group.service.ts: the actor must be a participant of
the conversation with role ADMIN. -/
def requireAdmin (st : Store) (convId : ConvId) (uid : UserId) :
    Except AppError Participant :=
  match st.participants.find? (fun p =>
      p.conversationId == convId && p.userId == uid) with
  | none => Except.error (AppError.forbidden "Not a member of this group")
  | some p =>
    if p.role ≠ Role.ADMIN then
      Except.error (AppError.forbidden "Admin privileges required")
    else Except.ok p

/-- `findFirst orderBy joinedAt asc`: the earliest-`joinedAt` row, ties kept
in table order. -/
def oldestParticipant : List Participant → Option Participant
  | [] => none
  | p :: ps =>
    match oldestParticipant ps with
    | none => some p
    | some q => if q.joinedAt < p.joinedAt then some q else some p

/-- `createGroup` from group.service.ts: at least one other member, dedup the
member list with the creator first, verify all users exist, create the GROUP
conversation with the creator as ADMIN and the rest MEMBER, create the group
row, then emit the SYSTEM message through `sendMessage`. -/
def createGroup (st : Store) (creatorId : UserId) (name : String)
    (memberIds : List UserId) (newConvId newGroupId newMsgId : String)
    (now : Time) : Except AppError Unit × Store :=
  if memberIds.length < 1 then
    (Except.error (AppError.validation "Group must have at least one other member"), st)
  else
    let uniqueMembers := firstDedup (creatorId :: memberIds)
    if !(uniqueMembers.all (fun id => st.users.any (fun u => u.id == id))) then
      (Except.error (AppError.validation "One or more users not found"), st)
    else
      let st2 : Store :=
        { st with
          conversations := st.conversations ++
            [{ id := newConvId, type := ConvType.GROUP, updatedAt := now }],
          participants := st.participants ++
            uniqueMembers.map (fun id =>
              { conversationId := newConvId, userId := id,
                role := if id == creatorId then Role.ADMIN else Role.MEMBER,
                joinedAt := now, lastReadAt := none }),
          groups := st.groups ++
            [{ id := newGroupId, conversationId := newConvId, name := name,
               createdBy := creatorId }] }
      let res := sendMessage st2 creatorId newConvId
        ("created the group \"" ++ name ++ "\"") "SYSTEM" none newMsgId now
      (res.1.map (fun _ => ()), res.2)

/-- `addMembers` from group.service.ts: group lookup, admin gate, filter out
already-present ids, reject when nothing remains, insert MEMBER rows, emit
the SYSTEM message listing display names. -/
def addMembers (st : Store) (adminUserId : UserId) (groupId : String)
    (memberIds : List UserId) (newMsgId : String) (now : Time) :
    Except AppError Unit × Store :=
  match st.groups.find? (fun g => g.id == groupId) with
  | none => (Except.error (AppError.notFound "Group not found"), st)
  | some group =>
    match requireAdmin st group.conversationId adminUserId with
    | Except.error e => (Except.error e, st)
    | Except.ok _ =>
      let newMemberIds := memberIds.filter (fun id =>
        !(st.participants.any (fun p =>
          p.conversationId == group.conversationId && p.userId == id)))
      if newMemberIds.length == 0 then
        (Except.error (AppError.validation "All users are already members"), st)
      else
        let st1 : Store :=
          { st with
            participants := st.participants ++
              newMemberIds.map (fun id =>
                { conversationId := group.conversationId, userId := id,
                  role := Role.MEMBER, joinedAt := now, lastReadAt := none }) }
        let names := String.intercalate ", "
          ((st.users.filter (fun u => newMemberIds.contains u.id)).map
            (fun u => u.displayName))
        let res := sendMessage st1 adminUserId group.conversationId
          ("added " ++ names) "SYSTEM" none newMsgId now
        (res.1.map (fun _ => ()), res.2)

/-- The deletion and auto-promotion step of `removeMember`: delete the
target's participant row and, when the removed row had role ADMIN, set the
role of the oldest-`joinedAt` remaining participant of the conversation to
ADMIN (`findFirst orderBy joinedAt asc` then `update`). -/
def deleteAndPromote (st : Store) (convId : ConvId) (targetUserId : UserId)
    (removed : Participant) : Store :=
  let st1 : Store :=
    { st with
      participants := st.participants.filter (fun p =>
        !(p.conversationId == convId && p.userId == targetUserId)) }
  if removed.role == Role.ADMIN then
    match oldestParticipant (st1.participants.filter (fun p =>
        p.conversationId == convId)) with
    | none => st1
    | some nextAdmin =>
      { st1 with
        participants := st1.participants.map (fun p =>
          if p.conversationId == nextAdmin.conversationId &&
              p.userId == nextAdmin.userId then
            { p with role := Role.ADMIN }
          else p) }
  else st1

/-- `removeMember` from group.service.ts: group lookup; admins may remove
anyone, a member may remove themself; delete the participant row; when the
removed row had role ADMIN promote the oldest-`joinedAt` remaining
participant of the conversation; emit the SYSTEM message. -/
def removeMember (st : Store) (actorUserId : UserId) (groupId : String)
    (targetUserId : UserId) (newMsgId : String) (now : Time) :
    Except AppError Unit × Store :=
  match st.groups.find? (fun g => g.id == groupId) with
  | none => (Except.error (AppError.notFound "Group not found"), st)
  | some group =>
    let adminCheck : Except AppError Unit :=
      if actorUserId != targetUserId then
        (requireAdmin st group.conversationId actorUserId).map (fun _ => ())
      else Except.ok ()
    match adminCheck with
    | Except.error e => (Except.error e, st)
    | Except.ok _ =>
      match st.participants.find? (fun p =>
          p.conversationId == group.conversationId && p.userId == targetUserId) with
      | none => (Except.error (AppError.notFound "User is not a member"), st)
      | some participant =>
        let st2 := deleteAndPromote st group.conversationId targetUserId participant
        let res := sendMessage st2 actorUserId group.conversationId
          (if actorUserId == targetUserId then "left the group" else "removed member")
          "SYSTEM" none newMsgId now
        (res.1.map (fun _ => ()), res.2)

/-- `updateMemberRole` from group.service.ts: group lookup, admin gate,
target must be a member, set the role — with no guard against demoting the
conversation's only ADMIN. -/
def updateMemberRole (st : Store) (adminUserId : UserId) (groupId : String)
    (targetUserId : UserId) (role : Role) : Except AppError Unit × Store :=
  match st.groups.find? (fun g => g.id == groupId) with
  | none => (Except.error (AppError.notFound "Group not found"), st)
  | some group =>
    match requireAdmin st group.conversationId adminUserId with
    | Except.error e => (Except.error e, st)
    | Except.ok _ =>
      match st.participants.find? (fun p =>
          p.conversationId == group.conversationId && p.userId == targetUserId) with
      | none => (Except.error (AppError.notFound "User is not a member"), st)
      | some participant =>
        (Except.ok (),
         { st with
           participants := st.participants.map (fun p =>
             if p.conversationId == participant.conversationId &&
                 p.userId == participant.userId then
               { p with role := role }
             else p) })

/-- The C8 invariant: every GROUP conversation with at least one participant
has at least one ADMIN participant. -/
def AdminInv (st : Store) : Prop :=
  ∀ c ∈ st.conversations, c.type = ConvType.GROUP →
    (∃ p ∈ st.participants, p.conversationId = c.id) →
    ∃ p ∈ st.participants, p.conversationId = c.id ∧ p.role = Role.ADMIN

instance (st : Store) : Decidable (AdminInv st) := by
  unfold AdminInv
  infer_instance

/-- `(conversationId, userId)` is a unique key of the participants table. -/
def ParticipantsKeyUnique (st : Store) : Prop :=
  st.participants.Pairwise (fun a b =>
    ¬(a.conversationId = b.conversationId ∧ a.userId = b.userId))

/-- Store for the C8 counterexample: group `g` with sole admin A and member
B. -/
def c8Store : Store :=
  { users := [{ id := "A", displayName := "A" }, { id := "B", displayName := "B" }],
    conversations := [{ id := "g", type := ConvType.GROUP, updatedAt := 0 }],
    participants := [{ conversationId := "g", userId := "A", role := Role.ADMIN,
                       joinedAt := 0, lastReadAt := none },
                     { conversationId := "g", userId := "B", role := Role.MEMBER,
                       joinedAt := 1, lastReadAt := none }],
    messages := [], receipts := [],
    groups := [{ id := "grp", conversationId := "g", name := "G",
                 createdBy := "A" }] }

/-- C8 counterexample: `updateMemberRole` lets the sole admin demote themself
— the call succeeds and leaves group `g` with participants but no ADMIN, so
the invariant is not preserved by the full set of group operations. -/
theorem C8_counterexample :
    AdminInv c8Store ∧
    (updateMemberRole c8Store "A" "grp" "A" Role.MEMBER).1 = Except.ok () ∧
    ¬ AdminInv (updateMemberRole c8Store "A" "grp" "A" Role.MEMBER).2 :=
  ⟨by decide, rfl, by decide⟩

theorem participantsKeyUnique_eq {st : Store} (h : ParticipantsKeyUnique st)
    {a b : Participant} (ha : a ∈ st.participants) (hb : b ∈ st.participants)
    (hk : a.conversationId = b.conversationId ∧ a.userId = b.userId) : a = b := by
  by_contra hne
  have hsymm : Symmetric (fun x y : Participant =>
      ¬(x.conversationId = y.conversationId ∧ x.userId = y.userId)) := by
    intro x y hxy hyx
    exact hxy ⟨hyx.1.symm, hyx.2.symm⟩
  exact (h.forall hsymm ha hb hne) hk

theorem requireAdmin_ok (st : Store) (convId : ConvId) (uid : UserId)
    (p : Participant) (h : requireAdmin st convId uid = Except.ok p) :
    p ∈ st.participants ∧ p.conversationId = convId ∧ p.userId = uid ∧
    p.role = Role.ADMIN := by
  unfold requireAdmin at h
  cases hf : st.participants.find? (fun q =>
      q.conversationId == convId && q.userId == uid) with
  | none =>
    rw [hf] at h
    exact absurd h (by simp)
  | some q =>
    rw [hf] at h
    dsimp only at h
    by_cases hr : q.role ≠ Role.ADMIN
    · rw [if_pos hr] at h
      exact absurd h (by simp)
    · rw [if_neg hr] at h
      injection h with h
      push_neg at hr
      have hk : q.conversationId = convId ∧ q.userId = uid := by
        simpa using List.find?_some hf
      rw [← h]
      exact ⟨List.mem_of_find?_eq_some hf, hk.1, hk.2, hr⟩

theorem sendMessage_store_shape (st : Store) (senderId : UserId) (convId : ConvId)
    (content contentType : String) (rid : Option MsgId) (newMsgId : MsgId)
    (now : Time) :
    (sendMessage st senderId convId content contentType rid newMsgId now).2.participants =
      st.participants ∧
    ((sendMessage st senderId convId content contentType rid newMsgId now).2.conversations =
        st.conversations ∨
      (sendMessage st senderId convId content contentType rid newMsgId now).2.conversations =
        st.conversations.map (fun c =>
          if c.id == convId then { c with updatedAt := now } else c)) := by
  unfold sendMessage
  split
  · exact ⟨rfl, Or.inl rfl⟩
  · dsimp only
    split
    · exact ⟨rfl, Or.inl rfl⟩
    · split
      · exact ⟨rfl, Or.inl rfl⟩
      · exact ⟨rfl, Or.inr rfl⟩

theorem adminInv_transfer (stB stA : Store)
    (hparts : stB.participants = stA.participants)
    (hconv : stB.conversations = stA.conversations ∨
      ∃ g : Conversation → Conversation,
        (∀ c, (g c).id = c.id ∧ (g c).type = c.type) ∧
        stB.conversations = stA.conversations.map g)
    (h : AdminInv stA) : AdminInv stB := by
  intro c hc htype hex
  rw [hparts] at hex ⊢
  rcases hconv with heq | ⟨g, hg, heq⟩
  · rw [heq] at hc
    exact h c hc htype hex
  · rw [heq] at hc
    obtain ⟨q, hq, hgq⟩ := List.mem_map.mp hc
    have hqid : q.id = c.id := by rw [← hgq]; exact ((hg q).1).symm
    have hqtype : q.type = ConvType.GROUP := by
      rw [← htype, ← hgq]
      exact ((hg q).2).symm
    obtain ⟨p, hp, h1, h2⟩ := h q hq hqtype (by rw [hqid]; exact hex)
    exact ⟨p, hp, by rw [← hqid]; exact h1, h2⟩

theorem adminInv_sendMessage (st : Store) (senderId : UserId) (convId : ConvId)
    (content contentType : String) (rid : Option MsgId) (newMsgId : MsgId)
    (now : Time) (h : AdminInv st) :
    AdminInv (sendMessage st senderId convId content contentType rid newMsgId now).2 := by
  obtain ⟨hp, hc⟩ := sendMessage_store_shape st senderId convId content contentType
    rid newMsgId now
  apply adminInv_transfer _ st hp ?_ h
  rcases hc with hc | hc
  · exact Or.inl hc
  · refine Or.inr ⟨_, ?_, hc⟩
    intro c
    by_cases hcid : (c.id == convId) = true <;> simp [hcid]

theorem oldestParticipant_eq_none {l : List Participant} :
    oldestParticipant l = none ↔ l = [] := by
  cases l with
  | nil => simp [oldestParticipant]
  | cons p ps =>
    simp only [oldestParticipant]
    cases oldestParticipant ps with
    | none => simp
    | some q =>
      by_cases hlt : q.joinedAt < p.joinedAt <;> simp [hlt]

theorem oldestParticipant_mem {l : List Participant} :
    ∀ {p : Participant}, oldestParticipant l = some p → p ∈ l := by
  induction l with
  | nil =>
    intro p h
    simp [oldestParticipant] at h
  | cons x xs ih =>
    intro p h
    simp only [oldestParticipant] at h
    cases hx : oldestParticipant xs with
    | none =>
      rw [hx] at h
      injection h with h
      rw [← h]
      exact List.mem_cons_self _ _
    | some q =>
      rw [hx] at h
      dsimp only at h
      by_cases hlt : q.joinedAt < x.joinedAt
      · rw [if_pos hlt] at h
        injection h with h
        rw [← h]
        exact List.mem_cons_of_mem _ (ih hx)
      · rw [if_neg hlt] at h
        injection h with h
        rw [← h]
        exact List.mem_cons_self _ _

theorem oldestParticipant_min {l : List Participant} :
    ∀ {p : Participant}, oldestParticipant l = some p →
      ∀ q ∈ l, p.joinedAt ≤ q.joinedAt := by
  induction l with
  | nil =>
    intro p h
    simp [oldestParticipant] at h
  | cons x xs ih =>
    intro p h q hq
    simp only [oldestParticipant] at h
    cases hx : oldestParticipant xs with
    | none =>
      have hxs : xs = [] := oldestParticipant_eq_none.mp hx
      rw [hx] at h
      injection h with h
      subst hxs
      rcases List.mem_cons.mp hq with heq | htail
      · rw [← h, heq]
      · simp at htail
    | some b =>
      rw [hx] at h
      dsimp only at h
      rcases List.mem_cons.mp hq with heq | htail
      · by_cases hlt : b.joinedAt < x.joinedAt
        · rw [if_pos hlt] at h
          injection h with h
          rw [← h, heq]
          exact le_of_lt hlt
        · rw [if_neg hlt] at h
          injection h with h
          rw [← h, heq]
      · have hbq := ih hx q htail
        by_cases hlt : b.joinedAt < x.joinedAt
        · rw [if_pos hlt] at h
          injection h with h
          rw [← h]
          exact hbq
        · rw [if_neg hlt] at h
          injection h with h
          rw [← h]
          exact le_trans (le_of_not_lt hlt) hbq

theorem mem_firstDedup_self (x : UserId) (xs : List UserId) :
    x ∈ firstDedup (x :: xs) := by
  rw [firstDedup]
  exact List.mem_cons_self _ _

theorem createGroup_adminInv (st : Store) (creatorId : UserId) (name : String)
    (memberIds : List UserId) (newConvId newGroupId newMsgId : String)
    (now : Time) (h : AdminInv st) :
    AdminInv (createGroup st creatorId name memberIds newConvId newGroupId
      newMsgId now).2 := by
  unfold createGroup
  split
  · exact h
  · dsimp only
    split
    · exact h
    · apply adminInv_sendMessage
      have hcreator : ∃ p ∈ st.participants ++
          (firstDedup (creatorId :: memberIds)).map (fun id =>
            ({ conversationId := newConvId, userId := id,
               role := if id == creatorId then Role.ADMIN else Role.MEMBER,
               joinedAt := now, lastReadAt := none } : Participant)),
          p.conversationId = newConvId ∧ p.role = Role.ADMIN := by
        refine ⟨_, List.mem_append_right _
          (List.mem_map_of_mem _ (mem_firstDedup_self creatorId memberIds)), ?_⟩
        simp
      intro c hc htype hex
      dsimp only at hc hex ⊢
      rcases List.mem_append.mp hc with hold | hnew
      · by_cases hex0 : ∃ p ∈ st.participants, p.conversationId = c.id
        · obtain ⟨p, hp, h1, h2⟩ := h c hold htype hex0
          exact ⟨p, List.mem_append_left _ hp, h1, h2⟩
        · obtain ⟨p, hp, hpc⟩ := hex
          rcases List.mem_append.mp hp with hpo | hpn
          · exact absurd ⟨p, hpo, hpc⟩ hex0
          · obtain ⟨uid, huid, hmk⟩ := List.mem_map.mp hpn
            have hcid : c.id = newConvId := by
              rw [← hpc, ← hmk]
            obtain ⟨cr, hcrm, hcr1, hcr2⟩ := hcreator
            exact ⟨cr, hcrm, by rw [hcid]; exact hcr1, hcr2⟩
      · have hceq :
            c = { id := newConvId, type := ConvType.GROUP, updatedAt := now } := by
          simpa using hnew
        obtain ⟨cr, hcrm, hcr1, hcr2⟩ := hcreator
        refine ⟨cr, hcrm, ?_, hcr2⟩
        rw [hceq]
        exact hcr1

theorem addMembers_adminInv (st : Store) (adminUserId : UserId) (groupId : String)
    (memberIds : List UserId) (newMsgId : String) (now : Time)
    (h : AdminInv st) :
    AdminInv (addMembers st adminUserId groupId memberIds newMsgId now).2 := by
  unfold addMembers
  cases hg : st.groups.find? (fun g => g.id == groupId) with
  | none =>
    exact h
  | some group =>
    dsimp only
    cases hra : requireAdmin st group.conversationId adminUserId with
    | error e =>
      exact h
    | ok ap =>
      dsimp only
      split
      · exact h
      · apply adminInv_sendMessage
        obtain ⟨ham, hac, hau, har⟩ :=
          requireAdmin_ok st group.conversationId adminUserId ap hra
        intro c hc htype hex
        dsimp only at hc hex ⊢
        obtain ⟨p, hp, hpc⟩ := hex
        rcases List.mem_append.mp hp with hpo | hpn
        · obtain ⟨q, hq, h1, h2⟩ := h c hc htype ⟨p, hpo, hpc⟩
          exact ⟨q, List.mem_append_left _ hq, h1, h2⟩
        · obtain ⟨uid, huid, hmk⟩ := List.mem_map.mp hpn
          have hcid : c.id = group.conversationId := by
            rw [← hpc, ← hmk]
          exact ⟨ap, List.mem_append_left _ ham, by rw [hcid]; exact hac, har⟩

theorem deleteAndPromote_adminInv (st : Store) (convId : ConvId)
    (targetUserId : UserId) (removed : Participant)
    (hfind : st.participants.find? (fun p =>
      p.conversationId == convId && p.userId == targetUserId) = some removed)
    (h : AdminInv st) (huniq : ParticipantsKeyUnique st) :
    AdminInv (deleteAndPromote st convId targetUserId removed) := by
  have hrm : removed ∈ st.participants := List.mem_of_find?_eq_some hfind
  have hrk : removed.conversationId = convId ∧ removed.userId = targetUserId := by
    simpa using List.find?_some hfind
  unfold deleteAndPromote
  dsimp only
  by_cases hrole : (removed.role == Role.ADMIN) = true
  · rw [if_pos hrole]
    cases hold : oldestParticipant ((st.participants.filter (fun p =>
        !(p.conversationId == convId && p.userId == targetUserId))).filter
        (fun p => p.conversationId == convId)) with
    | none =>
      intro c hc htype hex
      dsimp only at hc hex ⊢
      obtain ⟨p, hp, hpc⟩ := hex
      by_cases hcc : c.id = convId
      · exfalso
        have hpf : p ∈ (st.participants.filter (fun p =>
            !(p.conversationId == convId && p.userId == targetUserId))).filter
            (fun p => p.conversationId == convId) := by
          apply List.mem_filter.mpr
          exact ⟨hp, by simp [hpc, hcc]⟩
        rw [oldestParticipant_eq_none.mp hold] at hpf
        simp at hpf
      · have hpm : p ∈ st.participants := (List.mem_filter.mp hp).1
        obtain ⟨q, hq, h1, h2⟩ := h c hc htype ⟨p, hpm, hpc⟩
        refine ⟨q, ?_, h1, h2⟩
        apply List.mem_filter.mpr
        refine ⟨hq, ?_⟩
        simp [h1, hcc]
    | some na =>
      have hnam := oldestParticipant_mem hold
      have hna1 : na ∈ st.participants.filter (fun p =>
          !(p.conversationId == convId && p.userId == targetUserId)) :=
        (List.mem_filter.mp hnam).1
      have hnac : na.conversationId = convId := by
        simpa using (List.mem_filter.mp hnam).2
      intro c hc htype hex
      dsimp only at hc hex ⊢
      by_cases hcc : c.id = convId
      · refine ⟨_, List.mem_map_of_mem _ hna1, ?_⟩
        simp [hnac, hcc]
      · obtain ⟨p, hp, hpc⟩ := hex
        obtain ⟨q, hq, hfq⟩ := List.mem_map.mp hp
        have hqc : q.conversationId = c.id := by
          by_cases hcond : (q.conversationId == na.conversationId &&
              q.userId == na.userId) = true
          · rw [if_pos hcond] at hfq
            rw [← hfq] at hpc
            simpa using hpc
          · rw [if_neg hcond] at hfq
            rw [hfq]
            exact hpc
        have hqm : q ∈ st.participants := (List.mem_filter.mp hq).1
        obtain ⟨a, ha, h1, h2⟩ := h c hc htype ⟨q, hqm, hqc⟩
        have ha1 : a ∈ st.participants.filter (fun p =>
            !(p.conversationId == convId && p.userId == targetUserId)) := by
          apply List.mem_filter.mpr
          exact ⟨ha, by simp [h1, hcc]⟩
        have hcond : ¬((a.conversationId == na.conversationId &&
            a.userId == na.userId) = true) := by
          simp only [Bool.and_eq_true, beq_iff_eq, h1, hnac]
          exact fun hh => hcc hh.1
        refine ⟨_, List.mem_map_of_mem _ ha1, ?_⟩
        rw [if_neg hcond]
        exact ⟨h1, h2⟩
  · rw [if_neg hrole]
    intro c hc htype hex
    dsimp only at hc hex ⊢
    obtain ⟨p, hp, hpc⟩ := hex
    have hpm := (List.mem_filter.mp hp).1
    obtain ⟨a, ha, h1, h2⟩ := h c hc htype ⟨p, hpm, hpc⟩
    refine ⟨a, ?_, h1, h2⟩
    apply List.mem_filter.mpr
    refine ⟨ha, ?_⟩
    by_cases hak : a.conversationId = convId ∧ a.userId = targetUserId
    · exfalso
      have haeq : a = removed := participantsKeyUnique_eq huniq ha hrm
        ⟨by rw [hak.1, hrk.1], by rw [hak.2, hrk.2]⟩
      rw [haeq] at h2
      exact hrole (by simp [h2])
    · simpa using not_and_or.mp hak

theorem removeMember_adminInv (st : Store) (actorUserId : UserId)
    (groupId : String) (targetUserId : UserId) (newMsgId : String) (now : Time)
    (h : AdminInv st) (huniq : ParticipantsKeyUnique st) :
    AdminInv (removeMember st actorUserId groupId targetUserId newMsgId now).2 := by
  unfold removeMember
  cases hg : st.groups.find? (fun g => g.id == groupId) with
  | none =>
    exact h
  | some group =>
    dsimp only
    by_cases hat : (actorUserId != targetUserId) = true
    · rw [if_pos hat]
      cases hra : requireAdmin st group.conversationId actorUserId with
      | error e =>
        exact h
      | ok ap =>
        dsimp only [Except.map]
        cases hfp : st.participants.find? (fun p =>
            p.conversationId == group.conversationId &&
            p.userId == targetUserId) with
        | none =>
          exact h
        | some participant =>
          exact adminInv_sendMessage _ _ _ _ _ _ _ _
            (deleteAndPromote_adminInv st group.conversationId targetUserId
              participant hfp h huniq)
    · rw [if_neg hat]
      dsimp only
      cases hfp : st.participants.find? (fun p =>
          p.conversationId == group.conversationId &&
          p.userId == targetUserId) with
      | none =>
        exact h
      | some participant =>
        exact adminInv_sendMessage _ _ _ _ _ _ _ _
          (deleteAndPromote_adminInv st group.conversationId targetUserId
            participant hfp h huniq)

instance (st : Store) : Decidable (ParticipantsKeyUnique st) := by
  unfold ParticipantsKeyUnique
  infer_instance

/-- C8 (amended): the GROUP admin invariant — every GROUP conversation with a
participant has an ADMIN — is preserved by `createGroup`, `addMembers` and
`removeMember`; removing an ADMIN promotes the oldest-`joinedAt` remaining
participant of the conversation (promotion conjunct, stated through the
`deleteAndPromote` step that `removeMember` runs, with the last conjunct tying
`removeMember`'s resulting participants table to that step).  The invariant is
NOT preserved by `updateMemberRole`, which lets the sole admin demote themself
— see the counterexample. -/
theorem C8_group_admin_invariant (st : Store) (creatorId : UserId) (name : String)
    (memberIds : List UserId) (newConvId newGroupId newMsgId : String)
    (now : Time) (adminUserId actorUserId targetUserId : UserId)
    (groupId : String) (group : GroupRow) (removed na : Participant)
    (h : AdminInv st) (huniq : ParticipantsKeyUnique st)
    (hgfind : st.groups.find? (fun g => g.id == groupId) = some group) :
    AdminInv (createGroup st creatorId name memberIds newConvId newGroupId
      newMsgId now).2 ∧
    AdminInv (addMembers st adminUserId groupId memberIds newMsgId now).2 ∧
    AdminInv (removeMember st actorUserId groupId targetUserId newMsgId now).2 ∧
    (st.participants.find? (fun p =>
        p.conversationId == group.conversationId && p.userId == targetUserId) =
          some removed →
      removed.role = Role.ADMIN →
      oldestParticipant ((st.participants.filter (fun p =>
          !(p.conversationId == group.conversationId &&
            p.userId == targetUserId))).filter
          (fun p => p.conversationId == group.conversationId)) = some na →
      na ∈ st.participants ∧ na.conversationId = group.conversationId ∧
      (∀ q ∈ (st.participants.filter (fun p =>
          !(p.conversationId == group.conversationId &&
            p.userId == targetUserId))).filter
          (fun p => p.conversationId == group.conversationId),
        na.joinedAt ≤ q.joinedAt) ∧
      ∃ p ∈ (deleteAndPromote st group.conversationId targetUserId
          removed).participants,
        p.conversationId = group.conversationId ∧ p.userId = na.userId ∧
        p.role = Role.ADMIN) ∧
    (actorUserId = targetUserId →
      ∀ removed2, st.participants.find? (fun p =>
          p.conversationId == group.conversationId && p.userId == targetUserId) =
            some removed2 →
        (removeMember st actorUserId groupId targetUserId newMsgId
          now).2.participants =
          (deleteAndPromote st group.conversationId targetUserId
            removed2).participants) := by
  refine ⟨createGroup_adminInv st creatorId name memberIds newConvId newGroupId
      newMsgId now h,
    addMembers_adminInv st adminUserId groupId memberIds newMsgId now h,
    removeMember_adminInv st actorUserId groupId targetUserId newMsgId now h huniq,
    ?_, ?_⟩
  · intro hfp hrole hold
    have hnam := oldestParticipant_mem hold
    have hna1 : na ∈ st.participants.filter (fun p =>
        !(p.conversationId == group.conversationId && p.userId == targetUserId)) :=
      (List.mem_filter.mp hnam).1
    have hnac : na.conversationId = group.conversationId := by
      simpa using (List.mem_filter.mp hnam).2
    refine ⟨(List.mem_filter.mp hna1).1, hnac, oldestParticipant_min hold, ?_⟩
    unfold deleteAndPromote
    dsimp only
    rw [if_pos (by simp [hrole])]
    rw [hold]
    dsimp only
    refine ⟨_, List.mem_map_of_mem _ hna1, ?_⟩
    simp [hnac]
  · intro hat removed2 hfp
    unfold removeMember
    rw [hgfind]
    dsimp only
    rw [if_neg (by simp [hat])]
    dsimp only
    rw [hfp]
    dsimp only
    exact (sendMessage_store_shape _ _ _ _ _ _ _ _).1

/-- C8 witness: on `c8Store`, admin A self-leaves group `grp`; the invariant
is preserved and (by the theorem's promotion conjunct) member B, the oldest
remaining participant, is promoted. -/
theorem C8_group_admin_invariant_witness :
    AdminInv c8Store ∧
    ParticipantsKeyUnique c8Store ∧
    c8Store.groups.find? (fun g => g.id == "grp") =
      some { id := "grp", conversationId := "g", name := "G", createdBy := "A" } ∧
    AdminInv (removeMember c8Store "A" "grp" "A" "nm" 5).2 :=
  ⟨by decide, by decide, by decide,
    (C8_group_admin_invariant c8Store "A" "N" ["B"] "nc" "ng" "nm" 5 "A" "A" "A"
      "grp" { id := "grp", conversationId := "g", name := "G", createdBy := "A" }
      { conversationId := "g", userId := "A", role := Role.ADMIN,
        joinedAt := 0, lastReadAt := none }
      { conversationId := "g", userId := "B", role := Role.MEMBER,
        joinedAt := 1, lastReadAt := none }
      (by decide) (by decide) (by decide)).2.2.1⟩
